import Mathlib

/-!
Nib kernel: FAT32 reader over the SD block transport

A shallow embedding of `src/Fat32.c` (with the parts of `src/Uart.c` it prints
through) and of the register-level driver `src/Sd.c`, followed by theorems
about them.

Modelling conventions.

* Machine integers are natural numbers; every `unsigned int` operation that can
  wrap is reduced `% 2^32` explicitly.  The target is a little-endian ARM
  (Raspberry Pi 2/3), so plain `char` is unsigned and multi-byte fields are
  little-endian.
* A 512-byte block is a function from byte offset to byte value; only offsets
  `0..511` are ever inspected and every byte is read through `rd8`, which
  reduces it `% 256`.
* For the file system, `sd_read_block` is the boundary to the hardware.  It is
  an oracle `Device`: the outcome of a read may depend on the block index and
  on how many reads were issued before it.  The list of block indices read so
  far (`log`) is threaded through every function, so that "which blocks were
  transferred" is an observable of the model.  The driver behind that boundary
  is modelled on its own, over a register oracle, in the namespace `Sd`.
* `sector_buffer` is a scratch buffer that every function refills before it
  looks at it, so it is local to each call in the model.
* The diagnostic `uart_puts` calls of `fat32_init` and `fat32_read_file` are
  not modelled; the output of `fat32_list_files` is.
* The `while` loop of `fat32_read_file` need not terminate (zero sectors per
  cluster and a cyclic table), so it takes fuel and returns `none` when the
  fuel runs out.
-/

namespace Nib

/-! ## Constants of `Fat32.h` -/

def FAT32_OK : Int := 0
def FAT32_ERROR : Int := -1
def FAT32_NOT_FOUND : Int := -2

/-! ## Block transport boundary -/

/-- Contents of one 512-byte block, by byte offset. -/
abbrev Block := Nat → Nat

/-- Oracle for `sd_read_block`: `dev t b` is the outcome of reading block `b`
when `t` reads have been issued before; `none` is any status other than
`SD_OK`. -/
abbrev Device := Nat → Nat → Option Block

/-- One call of `sd_read_block(block, sector_buffer)`: the outcome and the
extended read log. -/
def sd_read_block (dev : Device) (log : List Nat) (block : Nat) : Option Block × List Nat :=
  (dev log.length block, log ++ [block])

/-- Byte at offset `off` of a buffer. -/
def rd8 (buf : Block) (off : Nat) : Nat := buf off % 256

/-- Little-endian `unsigned short` at offset `off`. -/
def rd16 (buf : Block) (off : Nat) : Nat := rd8 buf off + 256 * rd8 buf (off + 1)

/-- Little-endian `unsigned int` at offset `off`. -/
def rd32 (buf : Block) (off : Nat) : Nat :=
  rd8 buf off + 256 * rd8 buf (off + 1) + 65536 * rd8 buf (off + 2) + 16777216 * rd8 buf (off + 3)

/-- Conversion of an `unsigned int` to the `int` a function returns. -/
def toInt32 (n : Nat) : Int := if n < 2147483648 then (n : Int) else (n : Int) - 4294967296

/-! ## Volume state -/

/-- The fields of the packed `fat32_boot_sector_t` that the code uses, at their
packed offsets: `sector_size` 11, `sectors_per_cluster` 13, `reserved_sectors`
14, `fat_count` 16, `fat_size_32` 36, `root_cluster` 44, `fs_type` 82..89. -/
structure BootSector where
  sector_size : Nat
  sectors_per_cluster : Nat
  reserved_sectors : Nat
  fat_count : Nat
  fat_size_32 : Nat
  root_cluster : Nat
  fs_type : List Nat

/-- Result of `memcpy(&boot_sector, sector_buffer, sizeof(fat32_boot_sector_t))`. -/
def parse_boot_sector (buf : Block) : BootSector where
  sector_size := rd16 buf 11
  sectors_per_cluster := rd8 buf 13
  reserved_sectors := rd16 buf 14
  fat_count := rd8 buf 16
  fat_size_32 := rd32 buf 36
  root_cluster := rd32 buf 44
  fs_type := (List.range 8).map (fun i => rd8 buf (82 + i))

/-- The file-scope statics `boot_sector`, `fat_start`, `data_start`. -/
structure Fat32 where
  boot_sector : BootSector
  fat_start : Nat
  data_start : Nat

/-- The statics before `fat32_init` has run (zero-initialised). -/
def Fat32.zero : Fat32 :=
  ⟨⟨0, 0, 0, 0, 0, 0, List.replicate 8 0⟩, 0, 0⟩

/-- Model of `fat32_init`: status, statics afterwards, read log afterwards. -/
def fat32_init (dev : Device) (st : Fat32) (log : List Nat) : Int × Fat32 × List Nat :=
  match sd_read_block dev log 0 with
  | (none, log1) => (FAT32_ERROR, st, log1)
  | (some sector_buffer, log1) =>
    let bs := parse_boot_sector sector_buffer
    if bs.fs_type.getD 0 0 ≠ 70 ∨ bs.fs_type.getD 1 0 ≠ 65 ∨ bs.fs_type.getD 2 0 ≠ 84 then
      (FAT32_ERROR, { st with boot_sector := bs }, log1)
    else
      let fat_start := bs.reserved_sectors
      let data_start := (fat_start + (bs.fat_count * bs.fat_size_32) % 4294967296) % 4294967296
      (FAT32_OK, ⟨bs, fat_start, data_start⟩, log1)

/-- Model of `cluster_to_sector`, in `unsigned int` arithmetic. -/
def cluster_to_sector (st : Fat32) (cluster : Nat) : Nat :=
  (st.data_start
    + (((cluster + 4294967296 - 2) % 4294967296) * st.boot_sector.sectors_per_cluster) % 4294967296)
    % 4294967296

/-- Model of `get_next_cluster`: the successor (0 when the table block cannot
be read) and the read log afterwards. -/
def get_next_cluster (dev : Device) (st : Fat32) (log : List Nat) (cluster : Nat) : Nat × List Nat :=
  let fat_offset := (cluster * 4) % 4294967296
  let fat_sector := (st.fat_start + fat_offset / 512) % 4294967296
  let entry_offset := fat_offset % 512
  match sd_read_block dev log fat_sector with
  | (none, log1) => (0, log1)
  | (some sector_buffer, log1) => (rd32 sector_buffer entry_offset &&& 0x0FFFFFFF, log1)

/-! ## 8.3 name conversion -/

/-- The expression `filename[i] >= 'a' ? filename[i] - 32 : filename[i]`. -/
def fat_char (c : Nat) : Nat := if c ≥ 97 then c - 32 else c

/-- The first `while` loop of the conversion, from state `(i, j, fat_name)`;
`filename[i]` past the end of the list is the terminating NUL.  The loop runs
at most 8 times because `j` counts up to 8; the first argument is that bound. -/
def base_loop (filename : List Nat) : Nat → Nat → Nat → List Nat → Nat × Nat × List Nat
  | 0, i, j, fat_name => (i, j, fat_name)
  | fuel + 1, i, j, fat_name =>
    if filename.getD i 0 ≠ 0 ∧ filename.getD i 0 ≠ 46 ∧ j < 8 then
      base_loop filename fuel (i + 1) (j + 1) (fat_name.set j (fat_char (filename.getD i 0)))
    else (i, j, fat_name)

/-- The second `while` loop of the conversion (extension), bounded by 3. -/
def ext_loop (filename : List Nat) : Nat → Nat → Nat → List Nat → Nat × Nat × List Nat
  | 0, i, j, fat_name => (i, j, fat_name)
  | fuel + 1, i, j, fat_name =>
    if filename.getD i 0 ≠ 0 ∧ j < 11 then
      ext_loop filename fuel (i + 1) (j + 1) (fat_name.set j (fat_char (filename.getD i 0)))
    else (i, j, fat_name)

/-- The 11-byte search key `fat_name` that `fat32_read_file` builds from the
caller's name. -/
def to_fat_name (filename : List Nat) : List Nat :=
  let r := base_loop filename 8 0 0 (List.replicate 11 32)
  if filename.getD r.1 0 = 46 then
    (ext_loop filename 3 (r.1 + 1) 8 r.2.2).2.2
  else r.2.2

/-! ## Directory search -/

/-- The inner comparison loop over `n`, from index `n` with `k` positions left:
`true` iff no position differs. -/
def name_match (buf : Block) (e : Nat) (fat_name : List Nat) : Nat → Nat → Bool
  | 0, _ => true
  | k + 1, n =>
    if rd8 buf (32 * e + n) ≠ fat_name.getD n 0 then false
    else name_match buf e fat_name k (n + 1)

/-- The `file_cluster` stored in record `e`:
`((unsigned int)cluster_high << 16) | cluster_low`. -/
def entry_cluster (buf : Block) (e : Nat) : Nat :=
  (rd16 buf (32 * e + 20) <<< 16) ||| rd16 buf (32 * e + 26)

/-- The `file_size` stored in record `e`. -/
def entry_size (buf : Block) (e : Nat) : Nat := rd32 buf (32 * e + 28)

/-- The search loop over the 16 records of the directory block, from record
`e` with `k` records left: the index of the record at which the loop sets
`found` (where it reads `file_cluster` and `file_size` and breaks), or `none`
when `found` stays 0. -/
def dir_search (buf : Block) (fat_name : List Nat) : Nat → Nat → Option Nat
  | 0, _ => none
  | k + 1, e =>
    if rd8 buf (32 * e) = 0 then none
    else if rd8 buf (32 * e) = 0xE5 then dir_search buf fat_name k (e + 1)
    else if name_match buf e fat_name 11 0 then some e
    else dir_search buf fat_name k (e + 1)

/-! ## File reader -/

/-- Destination after `memcpy(buffer + off, sector_buffer, len)`. -/
def memcpy_at (buffer : Nat → Nat) (off : Nat) (src : Block) (len : Nat) : Nat → Nat :=
  fun i => if off ≤ i ∧ i < off + len then rd8 src (i - off) else buffer i

/-- The `for (s ...)` loop over the sectors of one cluster, from sector index
`s` with `k` sectors left.  The first component is `none` when a data read
failed (the function then returns `FAT32_ERROR`), otherwise the new
`bytes_read`; the second is the caller's buffer as the loop leaves it, which
on a failure still holds what the earlier sectors of the cluster copied. -/
def sector_loop (dev : Device) (sector file_size : Nat) :
    Nat → Nat → Nat → (Nat → Nat) → List Nat → Option Nat × (Nat → Nat) × List Nat
  | 0, _, bytes_read, buffer, log => (some bytes_read, buffer, log)
  | k + 1, s, bytes_read, buffer, log =>
    if bytes_read ≥ file_size then (some bytes_read, buffer, log)
    else
      match sd_read_block dev log ((sector + s) % 4294967296) with
      | (none, log1) => (none, buffer, log1)
      | (some sector_buffer, log1) =>
        let to_copy := if file_size - bytes_read > 512 then 512 else file_size - bytes_read
        sector_loop dev sector file_size k (s + 1) (bytes_read + to_copy)
          (memcpy_at buffer bytes_read sector_buffer to_copy) log1

/-- What a call of `fat32_read_file` leaves behind: the returned `int`, the
caller's buffer, and the read log. -/
structure ReadResult where
  ret : Int
  buffer : Nat → Nat
  log : List Nat

/-- The `while (cluster < 0x0FFFFFF8 && bytes_read < file_size)` loop with the
final `return bytes_read`; `none` when the fuel is used up with the loop
condition still true. -/
def cluster_loop (dev : Device) (st : Fat32) (file_size : Nat) :
    Nat → Nat → Nat → (Nat → Nat) → List Nat → Option ReadResult
  | 0, cluster, bytes_read, buffer, log =>
    if cluster < 0x0FFFFFF8 ∧ bytes_read < file_size then none
    else some ⟨toInt32 bytes_read, buffer, log⟩
  | fuel + 1, cluster, bytes_read, buffer, log =>
    if cluster < 0x0FFFFFF8 ∧ bytes_read < file_size then
      match sector_loop dev (cluster_to_sector st cluster) file_size
          st.boot_sector.sectors_per_cluster 0 bytes_read buffer log with
      | (none, buffer1, log1) => some ⟨FAT32_ERROR, buffer1, log1⟩
      | (some bytes_read1, buffer1, log1) =>
        let r := get_next_cluster dev st log1 cluster
        cluster_loop dev st file_size fuel r.1 bytes_read1 buffer1 r.2
    else some ⟨toInt32 bytes_read, buffer, log⟩

/-- Model of `fat32_read_file(filename, buffer, max_size)`. -/
def fat32_read_file (fuel : Nat) (dev : Device) (st : Fat32) (log : List Nat)
    (filename : List Nat) (buffer : Nat → Nat) (max_size : Nat) : Option ReadResult :=
  match sd_read_block dev log (cluster_to_sector st st.boot_sector.root_cluster) with
  | (none, log1) => some ⟨FAT32_ERROR, buffer, log1⟩
  | (some sector_buffer, log1) =>
    match dir_search sector_buffer (to_fat_name filename) 16 0 with
    | none => some ⟨FAT32_NOT_FOUND, buffer, log1⟩
    | some e =>
      let file_cluster := entry_cluster sector_buffer e
      let file_size := entry_size sector_buffer e
      if file_size > max_size then some ⟨FAT32_ERROR, buffer, log1⟩
      else cluster_loop dev st file_size fuel file_cluster 0 buffer log1

/-! ## Serial output (`Uart.c`) and directory listing -/

/-- Model of `uart_putc`: the character is appended to the output stream. -/
def uart_putc (out : List Nat) (c : Nat) : List Nat := out ++ [c]

/-- Model of `uart_puts`: a carriage return is sent before every line feed. -/
def uart_puts (out : List Nat) : List Nat → List Nat
  | [] => out
  | c :: cs => uart_puts (uart_putc (if c = 10 then uart_putc out 13 else out) c) cs

/-- The digit-filling loop of `uart_dec`: the characters stored in `buffer`,
least significant first.  An `unsigned int` has at most 10 decimal digits; the
first argument is that bound. -/
def dec_fill : Nat → Nat → List Nat
  | 0, _ => []
  | fuel + 1, num => if num > 0 then (48 + num % 10) :: dec_fill fuel (num / 10) else []

/-- Model of `uart_dec`. -/
def uart_dec (out : List Nat) (num : Nat) : List Nat :=
  if num = 0 then uart_putc out 48
  else (dec_fill 10 num).reverse.foldl uart_putc out

/-- The loops `for (i ...) if (name[i] != ' ') uart_putc(name[i])` of the
listing, from name index `i` with `k` positions left. -/
def put_name (buf : Block) (e : Nat) : Nat → Nat → List Nat → List Nat
  | 0, _, out => out
  | k + 1, i, out =>
    put_name buf e k (i + 1)
      (if rd8 buf (32 * e + i) ≠ 32 then uart_putc out (rd8 buf (32 * e + i)) else out)

/-- The record loop of `fat32_list_files`, from record `e` with `k` records
left. -/
def list_loop (buf : Block) : Nat → Nat → List Nat → List Nat
  | 0, _, out => out
  | k + 1, e, out =>
    if rd8 buf (32 * e) = 0 then out
    else if rd8 buf (32 * e) = 0xE5 then list_loop buf k (e + 1) out
    else if rd8 buf (32 * e + 11) &&& 0x08 ≠ 0 then list_loop buf k (e + 1) out
    else
      let out1 := put_name buf e 8 0 out
      let out2 :=
        if rd8 buf (32 * e + 8) ≠ 32 then put_name buf e 3 8 (uart_putc out1 46) else out1
      let out3 := uart_puts out2 [32, 32, 40]
      let out4 := uart_dec out3 (entry_size buf e)
      let out5 := uart_puts out4 [32, 98, 121, 116, 101, 115, 41, 10]
      list_loop buf k (e + 1) out5

/-- The string `"\nFiles in root directory:\n"`. -/
def list_title : List Nat :=
  [10, 70, 105, 108, 101, 115, 32, 105, 110, 32, 114, 111, 111, 116, 32, 100, 105, 114,
   101, 99, 116, 111, 114, 121, 58, 10]

/-- The string `"========================\n"`. -/
def list_rule : List Nat := List.replicate 24 61 ++ [10]

/-- The string `"FAT32: Failed to read root directory\n"`. -/
def list_failed : List Nat :=
  [70, 65, 84, 51, 50, 58, 32, 70, 97, 105, 108, 101, 100, 32, 116, 111, 32, 114, 101, 97,
   100, 32, 114, 111, 111, 116, 32, 100, 105, 114, 101, 99, 116, 111, 114, 121, 10]

/-- Model of `fat32_list_files`: the serial output and the read log afterwards. -/
def fat32_list_files (dev : Device) (st : Fat32) (log : List Nat) (out : List Nat) :
    List Nat × List Nat :=
  let out1 := uart_puts (uart_puts out list_title) list_rule
  match sd_read_block dev log (cluster_to_sector st st.boot_sector.root_cluster) with
  | (none, log1) => (uart_puts out1 list_failed, log1)
  | (some sector_buffer, log1) => (uart_puts (list_loop sector_buffer 16 0 out1) list_rule, log1)

/-! ## Specification-side notions used in the statements -/

/-- Upper-casing of a byte in the usual sense: the letters `a..z` go to
`A..Z`, every other byte is unchanged. -/
def upper (c : Nat) : Nat := if 97 ≤ c ∧ c ≤ 122 then c - 32 else c

/-- The first `n` bytes of `l`, upper-cased and padded with spaces to `n`. -/
def pad_upper (l : List Nat) (n : Nat) : List Nat :=
  (l.take n).map upper ++ List.replicate (n - (l.take n).length) 32

/-- The 8.3 key as the specification words it: split at the first `.`, left
part up to 8 bytes, right part up to 3 bytes, upper-cased, space-padded. -/
def spec_fat_name (name : List Nat) : List Nat :=
  pad_upper (name.takeWhile (fun c => c ≠ 46)) 8
    ++ pad_upper ((name.dropWhile (fun c => c ≠ 46)).drop 1) 3

/-- The volume is mounted: the derived geometry is the one `fat32_init`
computes from the boot record. -/
def Mounted (st : Fat32) : Prop :=
  st.fat_start = st.boot_sector.reserved_sectors ∧
  st.data_start =
    (st.boot_sector.reserved_sectors
      + (st.boot_sector.fat_count * st.boot_sector.fat_size_32) % 4294967296) % 4294967296

/-- First block of the data region, as the specification computes it (no
wrap-around): `reserved_sectors + fat_count * fat_size_32`. -/
def data_origin (st : Fat32) : Nat :=
  st.boot_sector.reserved_sectors + st.boot_sector.fat_count * st.boot_sector.fat_size_32

/-- The allocation-table entry of unit `c` as stored on a disk with fixed
contents: the masked little-endian word that `get_next_cluster` fetches. -/
def fat_entry (disk : Nat → Block) (st : Fat32) (c : Nat) : Nat :=
  rd32 (disk ((st.fat_start + (c * 4) % 4294967296 / 512) % 4294967296))
    ((c * 4) % 4294967296 % 512) &&& 0x0FFFFFFF

/-- The table chains `c` through the units of the list in order: `c` is the
first unit, every unit lies in `[2, 0x0FFFFFF8)`, its blocks have 32-bit block
indices, and each unit's table entry is the next unit of the list. -/
def FatChain (disk : Nat → Block) (st : Fat32) : Nat → List Nat → Prop
  | _, [] => True
  | c, x :: xs =>
    c = x ∧ 2 ≤ x ∧ x < 0x0FFFFFF8 ∧
    data_origin st + (x - 2) * st.boot_sector.sectors_per_cluster
      + st.boot_sector.sectors_per_cluster ≤ 4294967296 ∧
    FatChain disk st (fat_entry disk st x) xs

/-- Whether a list of units is a chain of the table can be computed. -/
instance FatChain.decide (disk : Nat → Block) (st : Fat32) :
    ∀ (c : Nat) (chain : List Nat), Decidable (FatChain disk st c chain)
  | _, [] => isTrue trivial
  | c, x :: xs =>
    have := FatChain.decide disk st (fat_entry disk st x) xs
    inferInstanceAs (Decidable (c = x ∧ 2 ≤ x ∧ x < 0x0FFFFFF8 ∧
      data_origin st + (x - 2) * st.boot_sector.sectors_per_cluster
        + st.boot_sector.sectors_per_cluster ≤ 4294967296 ∧
      FatChain disk st (fat_entry disk st x) xs))

/-- The table chains `c` through the units of the list in order and then
ends: as `FatChain`, and the entry after the last unit (or `c` itself when the
list is empty) is an end-of-chain value, at least `0x0FFFFFF8`. -/
def FatChainToEnd (disk : Nat → Block) (st : Fat32) : Nat → List Nat → Prop
  | c, [] => 0x0FFFFFF8 ≤ c
  | c, x :: xs =>
    c = x ∧ 2 ≤ x ∧ x < 0x0FFFFFF8 ∧
    data_origin st + (x - 2) * st.boot_sector.sectors_per_cluster
      + st.boot_sector.sectors_per_cluster ≤ 4294967296 ∧
    FatChainToEnd disk st (fat_entry disk st x) xs

/-- Whether a list of units is a chain of the table that then ends can be
computed. -/
instance FatChainToEnd.decide (disk : Nat → Block) (st : Fat32) :
    ∀ (c : Nat) (chain : List Nat), Decidable (FatChainToEnd disk st c chain)
  | c, [] => inferInstanceAs (Decidable (0x0FFFFFF8 ≤ c))
  | c, x :: xs =>
    have := FatChainToEnd.decide disk st (fat_entry disk st x) xs
    inferInstanceAs (Decidable (c = x ∧ 2 ≤ x ∧ x < 0x0FFFFFF8 ∧
      data_origin st + (x - 2) * st.boot_sector.sectors_per_cluster
        + st.boot_sector.sectors_per_cluster ≤ 4294967296 ∧
      FatChainToEnd disk st (fat_entry disk st x) xs))

/-- The 512 bytes of a block. -/
def block_bytes (blk : Block) : List Nat := (List.range 512).map (rd8 blk)

/-- The bytes of the consecutive blocks of unit `c`, starting at block
`data_origin + (c - 2) * sectors_per_cluster`. -/
def cluster_bytes (disk : Nat → Block) (st : Fat32) (c : Nat) : List Nat :=
  (List.range st.boot_sector.sectors_per_cluster).flatMap
    (fun s => block_bytes (disk (data_origin st + (c - 2) * st.boot_sector.sectors_per_cluster + s)))

/-- Concatenation, in chain order, of the bytes of the units of a chain. -/
def chain_bytes (disk : Nat → Block) (st : Fat32) (chain : List Nat) : List Nat :=
  chain.flatMap (cluster_bytes disk st)

/-- The first `n` bytes of the caller's buffer. -/
def buffer_bytes (buffer : Nat → Nat) (n : Nat) : List Nat := (List.range n).map buffer

/-- The 11-byte name field of record `e`. -/
def entry_name (buf : Block) (e : Nat) : List Nat :=
  (List.range 11).map (fun n => rd8 buf (32 * e + n))

/-- The records a listing shows: those before the first record whose first
name byte is 0 that are neither deleted nor volume labels. -/
def listed (buf : Block) : List Nat :=
  ((List.range 16).takeWhile (fun e => rd8 buf (32 * e) ≠ 0)).filter
    (fun e => rd8 buf (32 * e) ≠ 0xE5 ∧ rd8 buf (32 * e + 11) &&& 0x08 = 0)

/-- A field with its trailing spaces removed. -/
def trim (l : List Nat) : List Nat := l.rdropWhile (fun c => c = 32)

/-- The display name as the specification words it: trimmed base, then `.`
and the trimmed extension if the extension is not all spaces. -/
def spec_display_name (name : List Nat) : List Nat :=
  trim (name.take 8)
    ++ (if trim ((name.drop 8).take 3) ≠ [] then 46 :: trim ((name.drop 8).take 3) else [])

/-- The display name the listing prints: the non-space bytes of the base,
then, if the first extension byte is not a space, `.` and the non-space bytes
of the extension. -/
def display_name (name : List Nat) : List Nat :=
  (name.take 8).filter (fun c => c ≠ 32)
    ++ (if name.getD 8 0 ≠ 32 then 46 :: ((name.drop 8).take 3).filter (fun c => c ≠ 32) else [])

/-- Decimal digits of a number, as characters, most significant first. -/
def decimal (n : Nat) : List Nat :=
  if n = 0 then [48] else ((Nat.digits 10 n).map (fun d => 48 + d)).reverse

/-- One line of the listing for a record with the given name field and size:
the display name, two spaces, the size in parentheses, and CR LF. -/
def list_line (name : List Nat) (size : Nat) : List Nat :=
  display_name name ++ [32, 32, 40] ++ decimal size
    ++ [32, 98, 121, 116, 101, 115, 41, 13, 10]

/-! ## Concrete volumes used as witnesses -/

/-- Bytes of a C string. -/
def cstr (s : String) : List Nat := s.toList.map (fun c => c.toNat)

/-- A block given by its leading bytes; the rest is zero. -/
def block_of (l : List Nat) : Block := fun i => l.getD i 0

/-- A block given by (offset, byte) pairs; the rest is zero. -/
def sparse (l : List (Nat × Nat)) : Block := fun i => (l.lookup i).getD 0

/-- A 32-byte directory record. -/
def dir_record (name : List Nat) (attr cluster size : Nat) : List Nat :=
  name ++ [attr] ++ List.replicate 8 0
    ++ [cluster / 65536 % 256, cluster / 16777216 % 256] ++ List.replicate 4 0
    ++ [cluster % 256, cluster / 256 % 256,
        size % 256, size / 256 % 256, size / 65536 % 256, size / 16777216 % 256]

/-- A boot record: 512-byte sectors, 1 sector per cluster, 4 reserved sectors,
2 tables of 1 sector, root directory in cluster 2, tag `FAT32`. -/
def demo_boot : Block :=
  sparse [(11, 0), (12, 2), (13, 1), (14, 4), (15, 0), (16, 2), (36, 1), (44, 2),
    (82, 70), (83, 65), (84, 84), (85, 51), (86, 50)]

/-- A disk with `demo_boot`, the given table block (both copies, blocks 4 and
5) and root-directory block (block 6); data block `b` holds `(7 * b + i) % 256`
at offset `i`. -/
def demo_disk (fat dir : Block) : Nat → Block := fun b =>
  if b = 0 then demo_boot
  else if b = 4 ∨ b = 5 then fat
  else if b = 6 then dir
  else fun i => (7 * b + i) % 256

/-- A device on which every read succeeds and returns the disk's block. -/
def demo_dev (fat dir : Block) : Device := fun _ b => some (demo_disk fat dir b)

/-- The statics after mounting a disk whose block 0 is `demo_boot`. -/
def demo_vol : Fat32 := (fat32_init (fun _ _ => some demo_boot) Fat32.zero []).2.1

/-- Table block with the chain 5 -> 9 -> 12 -> end. -/
def fat_5_9_12 : Block :=
  sparse [(20, 9), (36, 12), (48, 255), (49, 255), (50, 255), (51, 15)]

/-- Table block in which the entry of unit 5 is 0 (a malformed chain). -/
def fat_5_zero : Block := sparse []

/-- Buffer contents before a call: every byte is 170. -/
def fresh : Nat → Nat := fun _ => 170

/-- Root directory with `TEST.TXT` (unit 5, 1300 bytes) and `BIG.BIN` (unit 20,
100 bytes). -/
def dir_test : Block :=
  block_of (dir_record (cstr "TEST    TXT") 0x20 5 1300 ++ dir_record (cstr "BIG     BIN") 0x20 20 100)

/-- Root directory whose only record is named `A~1` (unit 5, 1300 bytes). -/
def dir_tilde : Block := block_of (dir_record (cstr "A~1        ") 0x20 5 1300)

/-- Root directory whose first record is the volume label `NIB` (attribute
bit 3 set, no data) and whose second record is the file `NIB` (unit 5, 1300
bytes). -/
def dir_label : Block :=
  block_of (dir_record (cstr "NIB        ") 0x08 0 0 ++ dir_record (cstr "NIB        ") 0x20 5 1300)

/-- Root directory whose first record is deleted (first byte 0xE5, the rest
of the name is `EST    TXT`) and whose second record starts with 0. -/
def dir_deleted : Block :=
  block_of (dir_record (0xE5 :: cstr "EST    TXT") 0x20 5 1300)

/-- A device like `demo_dev` except that the read issued when `t0` reads have
been issued before fails. -/
def flaky_dev (t0 : Nat) (fat dir : Block) : Device :=
  fun t b => if t = t0 then none else some (demo_disk fat dir b)

/-- A field is padded: once its trailing spaces are removed no space is left. -/
def Padded (l : List Nat) : Prop := ∀ c ∈ trim l, c ≠ 32

/-- What the listing prints before the lines of the records: an empty line,
the title and a rule, each ended by CR LF. -/
def list_header : List Nat :=
  cstr "\r\nFiles in root directory:\r\n========================\r\n"

/-- What the listing prints after the lines of the records: a rule. -/
def list_footer : List Nat := cstr "========================\r\n"

/-- Root directory with the volume label `NIB`, then `TEST.TXT` (1300 bytes)
and `README` (42 bytes). -/
def dir_listing : Block :=
  block_of (dir_record (cstr "NIB        ") 0x08 0 0
    ++ dir_record (cstr "TEST    TXT") 0x20 5 1300
    ++ dir_record (cstr "README     ") 0x20 9 42)

/-- Root directory whose only record has the name field `A B     TXT`, with a
space inside the base (7 bytes). -/
def dir_spaced : Block := block_of (dir_record (cstr "A B     TXT") 0x20 5 7)

/-- A boot record with 128 sectors per cluster, 4 reserved sectors, 1 table of
300 sectors and the root directory in cluster 2. -/
def big_boot : Block :=
  sparse [(11, 0), (12, 2), (13, 128), (14, 4), (15, 0), (16, 1), (36, 44), (37, 1), (44, 2),
    (82, 70), (83, 65), (84, 84), (85, 51), (86, 50)]

/-- Table entries of the big volume: unit `c` in `[3, 32770)` is followed by
`c + 1`, unit 32770 ends the chain. -/
def big_fat_word (c : Nat) : Nat :=
  if 3 ≤ c ∧ c < 32770 then c + 1 else if c = 32770 then 0x0FFFFFFF else 0

/-- Table block `j` of the big volume (entries of units `128 * j ..`), each
entry stored little-endian. -/
def big_fat (j : Nat) : Block := fun off => big_fat_word (128 * j + off / 4) / 256 ^ (off % 4) % 256

/-- Root directory of the big volume: `BIG.BIN`, unit 3, 2^31 bytes. -/
def big_dir : Block := block_of (dir_record (cstr "BIG     BIN") 0x20 3 2147483648)

/-- The big disk: boot record, table in blocks 4..303, root directory in block
304, zero elsewhere. -/
def big_disk : Nat → Block := fun b =>
  if b = 0 then big_boot
  else if b = 304 then big_dir
  else if 4 ≤ b ∧ b < 304 then big_fat (b - 4)
  else fun _ => 0

/-- A device on which every read succeeds and returns the big disk's block. -/
def big_dev : Device := fun _ b => some (big_disk b)

/-- The statics after mounting the big disk. -/
def big_vol : Fat32 := (fat32_init (fun _ _ => some big_boot) Fat32.zero []).2.1

/-- Tally of the block reads of the chain loop, following the control flow of
`cluster_loop`: the first component counts the reads issued by the sector loop
(file data), the second the reads issued by `get_next_cluster` (allocation
table). -/
def cluster_loop_tally (dev : Device) (st : Fat32) (file_size : Nat) :
    Nat → Nat → Nat → (Nat → Nat) → List Nat → Nat × Nat
  | 0, _, _, _, _ => (0, 0)
  | fuel + 1, cluster, bytes_read, buffer, log =>
    if cluster < 0x0FFFFFF8 ∧ bytes_read < file_size then
      match sector_loop dev (cluster_to_sector st cluster) file_size
          st.boot_sector.sectors_per_cluster 0 bytes_read buffer log with
      | (none, _, log1) => (log1.length - log.length, 0)
      | (some bytes_read1, buffer1, log1) =>
        let r := get_next_cluster dev st log1 cluster
        let t := cluster_loop_tally dev st file_size fuel r.1 bytes_read1 buffer1 r.2
        (t.1 + (log1.length - log.length), t.2 + 1)
    else (0, 0)

/-- Tally of the file-data reads and table reads of a call of
`fat32_read_file`, following its control flow; the read of the root directory
is counted in neither. -/
def read_file_tally (fuel : Nat) (dev : Device) (st : Fat32) (log : List Nat)
    (filename : List Nat) (buffer : Nat → Nat) (max_size : Nat) : Nat × Nat :=
  match sd_read_block dev log (cluster_to_sector st st.boot_sector.root_cluster) with
  | (none, _) => (0, 0)
  | (some sector_buffer, log1) =>
    match dir_search sector_buffer (to_fat_name filename) 16 0 with
    | none => (0, 0)
    | some e =>
      if entry_size sector_buffer e > max_size then (0, 0)
      else cluster_loop_tally dev st (entry_size sector_buffer e) fuel
        (entry_cluster sector_buffer e) 0 buffer log1

/-! ## The SD block transport (`Sd.c`)

The controller is a set of memory-mapped 32-bit registers.  A read of a
register is answered by an oracle that may depend on the register and on how
many register reads were issued before (the `clock`), which covers every
behaviour of a controller towards this single-threaded driver; writes are
recorded, newest first.  `sd_delay` touches no register and is not modelled.
The diagnostic `uart_puts` calls of `sd_init` are not modelled. -/

namespace Sd

def SD_OK : Int := 0
def SD_ERROR : Int := -1
def SD_TIMEOUT : Int := -2

def CMD_ERRORS_MASK : Nat := 0xfff9c004
def CMD_RCA_MASK : Nat := 0xffff0000
def CMD_GO_IDLE : Nat := 0x00000000
def CMD_ALL_SEND_CID : Nat := 0x02010000
def CMD_SEND_REL_ADDR : Nat := 0x03020000
def CMD_CARD_SELECT : Nat := 0x07030000
def CMD_SEND_IF_COND : Nat := 0x08020000
def CMD_SET_BLOCKLEN : Nat := 0x10020000
def CMD_READ_SINGLE : Nat := 0x11220010
def CMD_WRITE_SINGLE : Nat := 0x18220000
def CMD_APP_CMD : Nat := 0x37000000
def CMD_SEND_OP_COND : Nat := 0x29020000 ||| 0x80000000

/-- The EMMC registers the driver names. -/
inductive Reg where
  | ARG2 | BLKSIZECNT | ARG1 | CMDTM | RESP0 | RESP1 | RESP2 | RESP3 | DATA | STATUS
  | CONTROL0 | CONTROL1 | INTERRUPT | IRPT_MASK | IRPT_EN | CONTROL2 | SLOTISR_VER
  deriving DecidableEq

/-- Oracle for the controller: `hw r t` is what a read of register `r` returns
when `t` register reads have been issued before. -/
abbrev Emmc := Reg → Nat → Nat

/-- State threaded through the driver: the number of register reads so far,
the register writes so far (newest first), and the statics `sd_rca` and
`sd_initialized`. -/
structure SdState where
  clock : Nat
  writes : List (Reg × Nat)
  sd_rca : Nat
  sd_initialized : Int

/-- A volatile read `*REG`: the value the controller returns and the state
afterwards. -/
def reg_read (hw : Emmc) (s : SdState) (r : Reg) : Nat × SdState :=
  (hw r s.clock, { s with clock := s.clock + 1 })

/-- A volatile write `*REG = v`. -/
def reg_write (s : SdState) (r : Reg) (v : Nat) : SdState :=
  { s with writes := (r, v) :: s.writes }

/-- The loop `while ((*EMMC_STATUS & 1) && timeout--)` of `sd_wait_for_cmd`,
entered with `timeout` equal to the first argument: the value of `timeout`
when the loop is left, and the state. -/
def wait_for_cmd_loop (hw : Emmc) : Nat → SdState → Int × SdState
  | 0, s =>
    if (reg_read hw s Reg.STATUS).1 &&& 1 ≠ 0 then (-1, (reg_read hw s Reg.STATUS).2)
    else (0, (reg_read hw s Reg.STATUS).2)
  | n + 1, s =>
    if (reg_read hw s Reg.STATUS).1 &&& 1 ≠ 0 then
      wait_for_cmd_loop hw n (reg_read hw s Reg.STATUS).2
    else (((n + 1 : Nat) : Int), (reg_read hw s Reg.STATUS).2)

/-- Model of `sd_wait_for_cmd`. -/
def sd_wait_for_cmd (hw : Emmc) (s : SdState) : Int × SdState :=
  if (wait_for_cmd_loop hw 1000000 s).1 ≤ 0 then (SD_ERROR, (wait_for_cmd_loop hw 1000000 s).2)
  else (SD_OK, (wait_for_cmd_loop hw 1000000 s).2)

/-- The loop `while (!(*EMMC_INTERRUPT & 1) && timeout--)` of `sd_send_cmd`,
entered with `timeout` equal to the first argument: the value of `timeout`
when the loop is left, and the state. -/
def cmd_done_loop (hw : Emmc) : Nat → SdState → Int × SdState
  | 0, s =>
    if (reg_read hw s Reg.INTERRUPT).1 &&& 1 = 0 then (-1, (reg_read hw s Reg.INTERRUPT).2)
    else (0, (reg_read hw s Reg.INTERRUPT).2)
  | n + 1, s =>
    if (reg_read hw s Reg.INTERRUPT).1 &&& 1 = 0 then
      cmd_done_loop hw n (reg_read hw s Reg.INTERRUPT).2
    else (((n + 1 : Nat) : Int), (reg_read hw s Reg.INTERRUPT).2)

/-- The state in which `sd_send_cmd` starts to wait for completion, given the
state `s` in which `sd_wait_for_cmd` returned: the interrupt flags have been
read and written back, and `arg` and `cmd` have been written. -/
def cmd_issued (hw : Emmc) (s : SdState) (cmd arg : Nat) : SdState :=
  reg_write
    (reg_write
      (reg_write (reg_read hw s Reg.INTERRUPT).2 Reg.INTERRUPT (reg_read hw s Reg.INTERRUPT).1)
      Reg.ARG1 arg)
    Reg.CMDTM cmd

/-- Model of `sd_send_cmd`. -/
def sd_send_cmd (hw : Emmc) (s : SdState) (cmd arg : Nat) : Int × SdState :=
  if (sd_wait_for_cmd hw s).1 ≠ SD_OK then (SD_ERROR, (sd_wait_for_cmd hw s).2)
  else
    let p := cmd_done_loop hw 1000000 (cmd_issued hw (sd_wait_for_cmd hw s).2 cmd arg)
    if p.1 ≤ 0 then (SD_TIMEOUT, p.2)
    else if (reg_read hw p.2 Reg.INTERRUPT).1 &&& CMD_ERRORS_MASK ≠ 0 then
      (SD_ERROR, (reg_read hw p.2 Reg.INTERRUPT).2)
    else (SD_OK, (reg_read hw p.2 Reg.INTERRUPT).2)

/-- The `while (timeout--)` loop of `sd_init` (ACMD41), entered with `timeout`
equal to the first argument: the value of `timeout` when the loop is left, and
the state. -/
def op_cond_loop (hw : Emmc) : Nat → SdState → Int × SdState
  | 0, s => (-1, s)
  | n + 1, s =>
    let a := sd_send_cmd hw s CMD_APP_CMD 0
    if a.1 ≠ SD_OK then op_cond_loop hw n a.2
    else
      let b := sd_send_cmd hw a.2 CMD_SEND_OP_COND 0x51FF8000
      if b.1 ≠ SD_OK then op_cond_loop hw n b.2
      else if (reg_read hw b.2 Reg.RESP0).1 &&& 0x80000000 ≠ 0 then
        ((n : Int), (reg_read hw b.2 Reg.RESP0).2)
      else op_cond_loop hw n (reg_read hw b.2 Reg.RESP0).2

/-- The controller set-up at the head of `sd_init`, up to the first command. -/
def sd_init_clocks (hw : Emmc) (s : SdState) : SdState :=
  let s1 := reg_write (reg_write s Reg.CONTROL1 0) Reg.CONTROL2 0
  let c1 := reg_read hw s1 Reg.CONTROL1
  let s2 := reg_write c1.2 Reg.CONTROL1 (c1.1 ||| (1 <<< 0))
  let s3 := reg_write s2 Reg.CONTROL1 ((0xF9 <<< 8) ||| (1 <<< 0))
  let c2 := reg_read hw s3 Reg.CONTROL1
  reg_write c2.2 Reg.CONTROL1 (c2.1 ||| (1 <<< 2))

/-- The tail of `sd_init` after the ACMD41 loop: CMD2, CMD3, CMD7, CMD16. -/
def sd_init_select (hw : Emmc) (s : SdState) : Int × SdState :=
  let c2 := sd_send_cmd hw s CMD_ALL_SEND_CID 0
  if c2.1 ≠ SD_OK then (SD_ERROR, c2.2)
  else
    let c3 := sd_send_cmd hw c2.2 CMD_SEND_REL_ADDR 0
    if c3.1 ≠ SD_OK then (SD_ERROR, c3.2)
    else
      let r := reg_read hw c3.2 Reg.RESP0
      let s1 := { r.2 with sd_rca := r.1 &&& CMD_RCA_MASK }
      let c7 := sd_send_cmd hw s1 CMD_CARD_SELECT s1.sd_rca
      if c7.1 ≠ SD_OK then (SD_ERROR, c7.2)
      else
        let c16 := sd_send_cmd hw c7.2 CMD_SET_BLOCKLEN 512
        if c16.1 ≠ SD_OK then (SD_ERROR, c16.2)
        else (SD_OK, { c16.2 with sd_initialized := 1 })

/-- Model of `sd_init`. -/
def sd_init (hw : Emmc) (s : SdState) : Int × SdState :=
  let c0 := sd_send_cmd hw (sd_init_clocks hw s) CMD_GO_IDLE 0
  if c0.1 ≠ SD_OK then (SD_ERROR, c0.2)
  else
    let c8 := sd_send_cmd hw c0.2 CMD_SEND_IF_COND 0x1AA
    if c8.1 ≠ SD_OK then (SD_ERROR, c8.2)
    else
      let l := op_cond_loop hw 1000 c8.2
      if l.1 ≤ 0 then (SD_TIMEOUT, l.2)
      else sd_init_select hw l.2

/-- The inner loop `while (!(*EMMC_STATUS & mask) && timeout--) { if (timeout
<= 0) return SD_TIMEOUT; }` of the block transfers, entered with a non-negative
`timeout` equal to the first argument: whether the function returned
`SD_TIMEOUT`, the value of `timeout`, and the state. -/
def data_wait_loop (hw : Emmc) (mask : Nat) : Nat → SdState → Bool × Int × SdState
  | 0, s =>
    if (reg_read hw s Reg.STATUS).1 &&& mask = 0 then (false, -1, (reg_read hw s Reg.STATUS).2)
    else (false, 0, (reg_read hw s Reg.STATUS).2)
  | n + 1, s =>
    if (reg_read hw s Reg.STATUS).1 &&& mask = 0 then
      if n = 0 then (true, 0, (reg_read hw s Reg.STATUS).2)
      else data_wait_loop hw mask n (reg_read hw s Reg.STATUS).2
    else (false, ((n + 1 : Nat) : Int), (reg_read hw s Reg.STATUS).2)

/-- The same inner loop for any value of `timeout`: with a negative `timeout`
the test `timeout--` is true and the body returns at once. -/
def data_wait (hw : Emmc) (mask : Nat) (timeout : Int) (s : SdState) : Bool × Int × SdState :=
  if 0 ≤ timeout then data_wait_loop hw mask timeout.toNat s
  else if (reg_read hw s Reg.STATUS).1 &&& mask = 0 then
    (true, timeout - 1, (reg_read hw s Reg.STATUS).2)
  else (false, timeout, (reg_read hw s Reg.STATUS).2)

/-- The `for (i ...)` loop of `sd_read_block` with `k` words left: status, the
words stored in the buffer so far, and the state. -/
def read_words (hw : Emmc) : Nat → Int → List Nat → SdState → Int × List Nat × SdState
  | 0, _, ws, s => (SD_OK, ws, s)
  | k + 1, timeout, ws, s =>
    let w := data_wait hw (1 <<< 5) timeout s
    if w.1 then (SD_TIMEOUT, ws, w.2.2)
    else
      read_words hw k w.2.1 (ws ++ [(reg_read hw w.2.2 Reg.DATA).1]) (reg_read hw w.2.2 Reg.DATA).2

/-- Model of `sd_read_block` at register level: status, the words stored in
the caller's buffer, and the state. -/
def sd_read_block (hw : Emmc) (s : SdState) (block : Nat) : Int × List Nat × SdState :=
  if s.sd_initialized = 0 then (SD_ERROR, [], s)
  else
    let c := sd_send_cmd hw (reg_write s Reg.BLKSIZECNT ((1 <<< 16) ||| 512)) CMD_READ_SINGLE block
    if c.1 ≠ SD_OK then (SD_ERROR, [], c.2)
    else read_words hw 128 1000000 [] c.2

/-- The `for (i ...)` loop of `sd_write_block` from word `i` with `k` words
left; `buffer i` is word `i` of the caller's buffer. -/
def write_words (hw : Emmc) (buffer : Nat → Nat) : Nat → Nat → Int → SdState → Int × SdState
  | 0, _, _, s => (SD_OK, s)
  | k + 1, i, timeout, s =>
    let w := data_wait hw (1 <<< 4) timeout s
    if w.1 then (SD_TIMEOUT, w.2.2)
    else write_words hw buffer k (i + 1) w.2.1 (reg_write w.2.2 Reg.DATA (buffer i))

/-- Model of `sd_write_block` at register level. -/
def sd_write_block (hw : Emmc) (s : SdState) (block : Nat) (buffer : Nat → Nat) : Int × SdState :=
  if s.sd_initialized = 0 then (SD_ERROR, s)
  else
    let c := sd_send_cmd hw (reg_write s Reg.BLKSIZECNT ((1 <<< 16) ||| 512)) CMD_WRITE_SINGLE block
    if c.1 ≠ SD_OK then (SD_ERROR, c.2)
    else write_words hw buffer 128 0 1000000 c.2

/-- A state in which `sd_init` has succeeded before. -/
def ready_state : SdState := ⟨0, [], 0, 1⟩

/-- A controller that is never busy and completes every command at once
without error, never has data ready, and reports the card ready (bit 31 of
`RESP0`) exactly at the read issued when `ready_at` reads came before. -/
def card (ready_at : Nat) : Emmc := fun r t =>
  match r with
  | Reg.INTERRUPT => 1
  | Reg.RESP0 => if t = ready_at then 0x80000000 else 0
  | _ => 0

/-- A controller all of whose registers always read 0: never busy, no command
ever completes. -/
def dead : Emmc := fun _ _ => 0

/-- The driver state at power-up. -/
def boot_state : SdState := ⟨0, [], 0, 0⟩

end Sd

/-! ## Facts about the directory search -/

theorem dir_search_sound (buf : Block) (key : List Nat) :
    ∀ (k e0 e : Nat), dir_search buf key k e0 = some e →
      e0 ≤ e ∧ e < e0 + k ∧ rd8 buf (32 * e) ≠ 0xE5 ∧ name_match buf e key 11 0 = true ∧
      (∀ e', e0 ≤ e' → e' ≤ e → rd8 buf (32 * e') ≠ 0) ∧
      (∀ e', e0 ≤ e' → e' < e → rd8 buf (32 * e') = 0xE5 ∨ name_match buf e' key 11 0 = false) := by
  intro k
  induction k with
  | zero => intro e0 e h; simp [dir_search] at h
  | succ k ih =>
    intro e0 e h
    rw [dir_search] at h
    by_cases h0 : rd8 buf (32 * e0) = 0
    · simp [h0] at h
    · by_cases hd : rd8 buf (32 * e0) = 0xE5
      · rw [if_neg h0, if_pos hd] at h
        obtain ⟨h1, h2, h3, h4, h5, h6⟩ := ih (e0 + 1) e h
        refine ⟨by omega, by omega, h3, h4, ?_, ?_⟩
        · intro e' he1 he2
          by_cases heq : e' = e0
          · subst heq; exact h0
          · exact h5 e' (by omega) he2
        · intro e' he1 he2
          by_cases heq : e' = e0
          · subst heq; exact Or.inl hd
          · exact h6 e' (by omega) he2
      · rw [if_neg h0, if_neg hd] at h
        by_cases hm : name_match buf e0 key 11 0 = true
        · rw [if_pos hm] at h
          have he : e0 = e := by simpa using h
          subst he
          refine ⟨le_refl _, by omega, hd, hm, ?_, ?_⟩
          · intro e' he1 he2
            have : e' = e0 := by omega
            subst this; exact h0
          · intro e' he1 he2; omega
        · rw [if_neg hm] at h
          obtain ⟨h1, h2, h3, h4, h5, h6⟩ := ih (e0 + 1) e h
          refine ⟨by omega, by omega, h3, h4, ?_, ?_⟩
          · intro e' he1 he2
            by_cases heq : e' = e0
            · subst heq; exact h0
            · exact h5 e' (by omega) he2
          · intro e' he1 he2
            by_cases heq : e' = e0
            · subst heq; exact Or.inr (by simpa using hm)
            · exact h6 e' (by omega) he2

/-! ## Name conversion (C2, C3) -/

/-- C2, at the name the claim singles out: for `LONGFILENAME.TXT` the code
builds the key `LONGFILE` followed by three spaces, because the first loop
stops at the ninth byte (`N`), which is not a `.`, so the extension loop is
never entered; the key the claim describes is `LONGFILETXT`. -/
theorem to_fat_name_long_base_drops_extension :
    to_fat_name (cstr "LONGFILENAME.TXT") = cstr "LONGFILE   " ∧
    spec_fat_name (cstr "LONGFILENAME.TXT") = cstr "LONGFILETXT" := by
  decide

/-- C3, at the name `A~1` (three characters, no `.`): the code subtracts 32
from every byte that is at least `a`, so `~` (0x7E) becomes `^` (0x5E) and the
key is `A^1` padded with spaces, whereas the upper-cased name is `A~1`; on a
root directory whose only record is named `A~1` padded with spaces the lookup
returns `FAT32_NOT_FOUND`. -/
theorem read_file_tilde_name_not_found :
    to_fat_name (cstr "A~1") = cstr "A^1        " ∧
    spec_fat_name (cstr "A~1") = cstr "A~1        " ∧
    entry_name dir_tilde 0 = cstr "A~1        " ∧
    (fat32_read_file 10 (demo_dev fat_5_9_12 dir_tilde) demo_vol [] (cstr "A~1") fresh 10240).map
      (fun r => r.ret) = some FAT32_NOT_FOUND := by
  decide

/-! ## Sentinels of the directory search (C4, C5) -/

/-- C4: when the root-directory block `blk` is read, the record that the
lookup matches (if any) does not start with 0xE5 and neither it nor any record
before it starts with 0; and if the first record starts with 0xE5 and the
second with 0, `fat32_read_file` returns `FAT32_NOT_FOUND` (after that one
block read, the buffer untouched) for every name. -/
theorem dir_search_honours_sentinels (fuel : Nat) (dev : Device) (st : Fat32) (log : List Nat)
    (name : List Nat) (buffer : Nat → Nat) (max_size : Nat) (blk : Block)
    (hread : dev log.length (cluster_to_sector st st.boot_sector.root_cluster) = some blk) :
    (∀ e, dir_search blk (to_fat_name name) 16 0 = some e →
      rd8 blk (32 * e) ≠ 0xE5 ∧ ∀ e', e' ≤ e → rd8 blk (32 * e') ≠ 0) ∧
    (rd8 blk 0 = 0xE5 → rd8 blk 32 = 0 →
      fat32_read_file fuel dev st log name buffer max_size =
        some ⟨FAT32_NOT_FOUND, buffer,
          log ++ [cluster_to_sector st st.boot_sector.root_cluster]⟩) := by
  constructor
  · intro e he
    obtain ⟨-, -, h3, -, h5, -⟩ := dir_search_sound blk _ 16 0 e he
    exact ⟨h3, fun e' h => h5 e' (Nat.zero_le _) h⟩
  · intro h0 h1
    have hs : dir_search blk (to_fat_name name) 16 0 = none := by
      simp [dir_search, h0, h1]
    simp [fat32_read_file, sd_read_block, hread, hs]

/-- C4 at a concrete volume: first record deleted with trailing name bytes
`EST    TXT`, second record starting with 0; looking up `TEST.TXT` and
`EST.TXT` both give `FAT32_NOT_FOUND`. -/
theorem dir_search_honours_sentinels_witness :
    demo_dev fat_5_9_12 dir_deleted ([] : List Nat).length
        (cluster_to_sector demo_vol demo_vol.boot_sector.root_cluster) = some dir_deleted ∧
    rd8 dir_deleted 0 = 0xE5 ∧ rd8 dir_deleted 32 = 0 ∧
    fat32_read_file 10 (demo_dev fat_5_9_12 dir_deleted) demo_vol [] (cstr "TEST.TXT") fresh 10240 =
      some ⟨FAT32_NOT_FOUND, fresh, [] ++ [cluster_to_sector demo_vol demo_vol.boot_sector.root_cluster]⟩ :=
  ⟨rfl, by decide, by decide,
    (dir_search_honours_sentinels 10 (demo_dev fat_5_9_12 dir_deleted) demo_vol [] (cstr "TEST.TXT")
      fresh 10240 dir_deleted rfl).2 (by decide) (by decide)⟩

/-- C5, at a root directory whose first record is a volume label named `NIB`
(attribute bit 3 set) and whose second record is a file of the same name: the
lookup of `NIB` matches record 0, the volume label, and `fat32_read_file`
returns 0 (the label's size) instead of passing the label over and reading the
1300-byte file of record 1; the listing of the same block skips the label. -/
theorem read_file_matches_volume_label :
    rd8 dir_label 11 &&& 0x08 ≠ 0 ∧
    entry_name dir_label 0 = to_fat_name (cstr "NIB") ∧
    dir_search dir_label (to_fat_name (cstr "NIB")) 16 0 = some 0 ∧
    (fat32_read_file 10 (demo_dev fat_5_9_12 dir_label) demo_vol [] (cstr "NIB") fresh 10240).map
      (fun r => (r.ret, r.log)) = some (0, [6]) ∧
    listed dir_label = [1] := by
  decide

/-! ## Early rejections (C7, C8) -/

/-- C7: if the root-directory block is read and the matched record declares a
size greater than `max_size`, `fat32_read_file` returns `FAT32_ERROR`, the
caller's buffer is unchanged, and the only block read of the call is the one
of the root directory (no data block, no table block). -/
theorem read_file_too_large (fuel : Nat) (dev : Device) (st : Fat32) (log : List Nat)
    (name : List Nat) (buffer : Nat → Nat) (max_size : Nat) (blk : Block) (e : Nat)
    (hread : dev log.length (cluster_to_sector st st.boot_sector.root_cluster) = some blk)
    (hfind : dir_search blk (to_fat_name name) 16 0 = some e)
    (hbig : entry_size blk e > max_size) :
    fat32_read_file fuel dev st log name buffer max_size =
      some ⟨FAT32_ERROR, buffer, log ++ [cluster_to_sector st st.boot_sector.root_cluster]⟩ := by
  simp [fat32_read_file, sd_read_block, hread, hfind, hbig]

/-- C7 at declared size 100 and capacity 50. -/
theorem read_file_too_large_witness :
    entry_size dir_test 1 = 100 ∧
    fat32_read_file 10 (demo_dev fat_5_9_12 dir_test) demo_vol [] (cstr "big.bin") fresh 50 =
      some ⟨FAT32_ERROR, fresh, [] ++ [cluster_to_sector demo_vol demo_vol.boot_sector.root_cluster]⟩ :=
  ⟨by decide,
    read_file_too_large 10 (demo_dev fat_5_9_12 dir_test) demo_vol [] (cstr "big.bin") fresh 50
      dir_test 1 rfl (by decide) (by decide)⟩

/-- C8: if the read of block 0 fails, or delivers a block whose bytes 82, 83,
84 are not `F`, `A`, `T`, then `fat32_init` returns `FAT32_ERROR`, has read
block 0 and nothing else, and leaves `fat_start` and `data_start` as they
were. -/
theorem fat32_init_rejects_bad_signature (dev : Device) (st : Fat32) (log : List Nat)
    (hbad : ∀ blk, dev log.length 0 = some blk →
      ¬ (rd8 blk 82 = 70 ∧ rd8 blk 83 = 65 ∧ rd8 blk 84 = 84)) :
    (fat32_init dev st log).1 = FAT32_ERROR ∧
    (fat32_init dev st log).2.2 = log ++ [0] ∧
    (fat32_init dev st log).2.1.fat_start = st.fat_start ∧
    (fat32_init dev st log).2.1.data_start = st.data_start := by
  cases hd : dev log.length 0 with
  | none => simp [fat32_init, sd_read_block, hd]
  | some blk =>
    have hb := hbad blk hd
    have hcond : (parse_boot_sector blk).fs_type.getD 0 0 ≠ 70 ∨
        (parse_boot_sector blk).fs_type.getD 1 0 ≠ 65 ∨
        (parse_boot_sector blk).fs_type.getD 2 0 ≠ 84 := by
      have e0 : (parse_boot_sector blk).fs_type.getD 0 0 = rd8 blk 82 := by
        simp [parse_boot_sector, List.range_succ]
      have e1 : (parse_boot_sector blk).fs_type.getD 1 0 = rd8 blk 83 := by
        simp [parse_boot_sector, List.range_succ]
      have e2 : (parse_boot_sector blk).fs_type.getD 2 0 = rd8 blk 84 := by
        simp [parse_boot_sector, List.range_succ]
      rw [e0, e1, e2]
      by_contra hc
      push_neg at hc
      exact hb hc
    simp only [fat32_init, sd_read_block, hd]
    rw [if_pos hcond]
    simp

/-- C8 at a block 0 that is all zero, with statics already holding a
geometry. -/
theorem fat32_init_rejects_bad_signature_witness :
    (fat32_init (fun _ _ => some (sparse [])) demo_vol []).1 = FAT32_ERROR ∧
    (fat32_init (fun _ _ => some (sparse [])) demo_vol []).2.2 = [] ++ [0] ∧
    (fat32_init (fun _ _ => some (sparse [])) demo_vol []).2.1.fat_start = demo_vol.fat_start ∧
    (fat32_init (fun _ _ => some (sparse [])) demo_vol []).2.1.data_start = demo_vol.data_start :=
  fat32_init_rejects_bad_signature (fun _ _ => some (sparse [])) demo_vol []
    (by
      intro blk h
      have hb : blk = sparse [] := by
        have h2 : some (sparse []) = some blk := h
        exact (Option.some.inj h2).symm
      subst hb
      decide)

/-! ## The chain loop: error sentinel and short reads (C9, C10) -/

/-- C9, at a table whose entry for unit 5 is 0, and at a table block that is
unreadable once: with 1300 bytes declared and one sector per cluster, after the
first data block (block 9) the walk returns 0 while 788 bytes remain; the code
converts unit 0 to block `data_start - 2 = 4` (the table itself), copies it as
file data twice and returns 1300 as if the read had succeeded. -/
theorem read_file_follows_successor_zero :
    fat_entry (demo_disk fat_5_zero dir_test) demo_vol 5 = 0 ∧
    cluster_to_sector demo_vol 0 = 4 ∧
    (fat32_read_file 10 (demo_dev fat_5_zero dir_test) demo_vol [] (cstr "test.txt") fresh 10240).map
      (fun r => (r.ret, r.log)) = some (1300, [6, 9, 4, 4, 4, 4, 4]) ∧
    (fat32_read_file 10 (flaky_dev 2 fat_5_9_12 dir_test) demo_vol [] (cstr "test.txt") fresh
      10240).map (fun r => (r.ret, r.log)) = some (1300, [6, 9, 4, 4, 4, 4, 4]) := by
  decide

theorem sector_loop_le (dev : Device) (sector n : Nat) :
    ∀ (k s br : Nat) (buf : Nat → Nat) (log : List Nat) (br1 : Nat) (buf1 : Nat → Nat)
      (log1 : List Nat),
      sector_loop dev sector n k s br buf log = (some br1, buf1, log1) → br ≤ n → br1 ≤ n := by
  intro k
  induction k with
  | zero =>
    intro s br buf log br1 buf1 log1 h hle
    simp only [sector_loop, Prod.mk.injEq, Option.some.injEq] at h
    omega
  | succ k ih =>
    intro s br buf log br1 buf1 log1 h hle
    rw [sector_loop] at h
    by_cases hge : br ≥ n
    · rw [if_pos hge] at h
      simp only [Prod.mk.injEq, Option.some.injEq] at h
      omega
    · rw [if_neg hge] at h
      simp only [sd_read_block] at h
      cases hd : dev log.length ((sector + s) % 4294967296) with
      | none => simp [hd] at h
      | some blk =>
        simp only [hd] at h
        refine ih _ _ _ _ _ _ _ h ?_
        split <;> omega

theorem cluster_loop_ret (dev : Device) (st : Fat32) (n : Nat) :
    ∀ (fuel c br : Nat) (buf : Nat → Nat) (log : List Nat) (r : ReadResult),
      cluster_loop dev st n fuel c br buf log = some r → br ≤ n →
      r.ret = FAT32_ERROR ∨ ∃ br1, br1 ≤ n ∧ r.ret = toInt32 br1 := by
  intro fuel
  induction fuel with
  | zero =>
    intro c br buf log r h hle
    rw [cluster_loop] at h
    split at h
    · exact absurd h (by simp)
    · simp only [Option.some.injEq] at h
      subst h
      exact Or.inr ⟨br, hle, rfl⟩
  | succ fuel ih =>
    intro c br buf log r h hle
    rw [cluster_loop] at h
    split at h
    · cases hs : sector_loop dev (cluster_to_sector st c) n
          st.boot_sector.sectors_per_cluster 0 br buf log with
      | mk res rest =>
        obtain ⟨buf1, log1⟩ := rest
        cases res with
        | none =>
          simp only [hs, Option.some.injEq] at h
          subst h
          exact Or.inl rfl
        | some br1 =>
          simp only [hs] at h
          exact ih _ _ _ _ _ h (sector_loop_le dev _ n _ _ _ _ _ _ _ _ hs hle)
    · simp only [Option.some.injEq] at h
      subst h
      exact Or.inr ⟨br, hle, rfl⟩

theorem uart_puts_append (out s : List Nat) : uart_puts out s = out ++ uart_puts [] s := by
  induction s generalizing out with
  | nil => simp [uart_puts]
  | cons c cs ih =>
    rw [uart_puts, ih, uart_puts, ih (uart_putc _ c)]
    by_cases hc : c = 10 <;> simp [hc, uart_putc]

theorem foldl_uart_putc (l out : List Nat) : l.foldl uart_putc out = out ++ l := by
  induction l generalizing out with
  | nil => simp
  | cons c cs ih => simp [List.foldl, ih, uart_putc]

theorem dec_fill_eq_digits :
    ∀ (fuel num : Nat), num < 10 ^ fuel →
      dec_fill fuel num = (Nat.digits 10 num).map (fun d => 48 + d) := by
  intro fuel
  induction fuel with
  | zero =>
    intro num h
    have : num = 0 := by simpa using h
    subst this
    simp [dec_fill]
  | succ fuel ih =>
    intro num h
    rw [dec_fill]
    by_cases hp : num > 0
    · rw [if_pos hp, Nat.digits_def' (by norm_num) hp, ih (num / 10) (by
        rw [Nat.div_lt_iff_lt_mul (by norm_num)]
        rw [pow_succ] at h
        exact h)]
      simp
    · have : num = 0 := by omega
      subst this
      simp

theorem uart_dec_eq (out : List Nat) (num : Nat) (h : num < 4294967296) :
    uart_dec out num = out ++ decimal num := by
  unfold uart_dec decimal
  by_cases h0 : num = 0
  · simp [h0, uart_putc]
  · rw [if_neg h0, if_neg h0, foldl_uart_putc, dec_fill_eq_digits 10 num (by omega)]

theorem rd8_lt (buf : Block) (off : Nat) : rd8 buf off < 256 := by
  unfold rd8
  omega

theorem rd32_lt (buf : Block) (off : Nat) : rd32 buf off < 4294967296 := by
  have h0 := rd8_lt buf off
  have h1 := rd8_lt buf (off + 1)
  have h2 := rd8_lt buf (off + 2)
  have h3 := rd8_lt buf (off + 3)
  unfold rd32
  omega

theorem put_name_eq (buf : Block) (e : Nat) :
    ∀ (k i : Nat) (out : List Nat),
      put_name buf e k i out =
        out ++ ((List.range' i k).map (fun j => rd8 buf (32 * e + j))).filter (fun c => c ≠ 32) := by
  intro k
  induction k with
  | zero => intro i out; simp [put_name]
  | succ k ih =>
    intro i out
    rw [put_name, ih, List.range'_succ]
    by_cases hc : rd8 buf (32 * e + i) = 32
    · simp [hc]
    · simp [hc, uart_putc, List.filter_cons]

theorem list_record_eq (buf : Block) (e : Nat) (out : List Nat) :
    uart_puts
      (uart_dec
        (uart_puts
          (if rd8 buf (32 * e + 8) ≠ 32 then
            put_name buf e 3 8 (uart_putc (put_name buf e 8 0 out) 46)
          else put_name buf e 8 0 out)
          [32, 32, 40])
        (entry_size buf e))
      [32, 98, 121, 116, 101, 115, 41, 10]
    = out ++ list_line (entry_name buf e) (entry_size buf e) := by
  rw [uart_puts_append, uart_dec_eq _ (entry_size buf e) (rd32_lt _ _), uart_puts_append]
  have hb : (entry_name buf e).take 8 = (List.range' 0 8).map (fun j => rd8 buf (32 * e + j)) := rfl
  have hx : ((entry_name buf e).drop 8).take 3
      = (List.range' 8 3).map (fun j => rd8 buf (32 * e + j)) := rfl
  have h8 : (entry_name buf e).getD 8 0 = rd8 buf (32 * e + 8) := rfl
  have hp1 : uart_puts [] [32, 32, 40] = [32, 32, 40] := by decide
  have hp2 : uart_puts [] [32, 98, 121, 116, 101, 115, 41, 10]
      = [32, 98, 121, 116, 101, 115, 41, 13, 10] := by decide
  unfold list_line display_name
  rw [hb, hx, h8, hp1, hp2]
  by_cases hc : rd8 buf (32 * e + 8) = 32
  · simp [hc, put_name_eq]
  · simp [hc, put_name_eq, uart_putc]

theorem list_loop_eq (buf : Block) :
    ∀ (k e : Nat) (out : List Nat),
      list_loop buf k e out =
        out ++ ((((List.range' e k).takeWhile (fun e => rd8 buf (32 * e) ≠ 0)).filter
          (fun e => rd8 buf (32 * e) ≠ 0xE5 ∧ rd8 buf (32 * e + 11) &&& 0x08 = 0)).flatMap
          (fun e => list_line (entry_name buf e) (entry_size buf e))) := by
  intro k
  induction k with
  | zero => intro e out; simp [list_loop]
  | succ k ih =>
    intro e out
    rw [list_loop, List.range'_succ]
    by_cases h0 : rd8 buf (32 * e) = 0
    · simp [h0]
    · by_cases hd : rd8 buf (32 * e) = 0xE5
      · rw [if_neg h0, if_pos hd, ih]
        simp [List.takeWhile_cons, h0, List.filter_cons, hd]
      · by_cases hv : rd8 buf (32 * e + 11) &&& 0x08 = 0
        · rw [if_neg h0, if_neg hd, if_neg (by simpa using hv)]
          simp only []
          rw [list_record_eq, ih]
          simp [List.takeWhile_cons, h0, List.filter_cons, hd, hv]
        · rw [if_neg h0, if_neg hd, if_pos hv, ih]
          simp [List.takeWhile_cons, h0, List.filter_cons, hd, hv]

theorem filter_eq_trim (l : List Nat) (h : Padded l) : l.filter (fun c => c ≠ 32) = trim l := by
  induction l using List.reverseRecOn with
  | nil => simp [trim]
  | append_singleton l x ih =>
    by_cases hx : x = 32
    · have ht : trim (l ++ [x]) = trim l := by
        unfold trim
        exact List.rdropWhile_concat_pos _ _ _ (by simpa using hx)
      have hp : Padded l := fun c hc => h c (by rw [ht]; exact hc)
      rw [ht, List.filter_append, ih hp]
      simp [hx]
    · have ht : trim (l ++ [x]) = l ++ [x] := by
        unfold trim
        exact List.rdropWhile_concat_neg _ _ _ (by simpa using hx)
      rw [ht, List.filter_eq_self]
      intro a ha
      have := h a (by rw [ht]; exact ha)
      simpa using this

theorem head_ne_space_iff (x : Nat) (t : List Nat) (h : Padded (x :: t)) :
    x ≠ 32 ↔ trim (x :: t) ≠ [] := by
  constructor
  · intro hx hnil
    unfold trim at hnil
    rw [List.rdropWhile_eq_nil_iff] at hnil
    exact hx (by simpa using hnil x (List.mem_cons_self _ _))
  · intro hne
    obtain ⟨s, hs⟩ : trim (x :: t) <+: (x :: t) := List.rdropWhile_prefix _ _
    cases hr : trim (x :: t) with
    | nil => exact absurd hr hne
    | cons y ys =>
      rw [hr] at hs
      have hy : y = x := by
        simp only [List.cons_append, List.cons.injEq] at hs
        exact hs.1
      subst hy
      exact h y (by rw [hr]; exact List.mem_cons_self _ _)

set_option maxRecDepth 100000 in
/-- C6, at the name field `A B     TXT` (a space inside the base): the base
with its trailing spaces trimmed is `A B`, so the display name the claim
describes is `A B.TXT`, but the loop under the comment `Print filename` drops
every space of the field and prints `AB.TXT`.  The printed name does not lead
back to the file: the code's own lookup returns `FAT32_NOT_FOUND` for `AB.TXT`
and finds the record under `A B.TXT` (7 bytes). -/
theorem list_files_drops_inner_spaces :
    listed dir_spaced = [0] ∧
    entry_name dir_spaced 0 = cstr "A B     TXT" ∧
    spec_display_name (entry_name dir_spaced 0) = cstr "A B.TXT" ∧
    (fat32_list_files (demo_dev fat_5_9_12 dir_spaced) demo_vol [] []).1 =
      cstr "\r\nFiles in root directory:\r\n========================\r\nAB.TXT  (7 bytes)\r\n========================\r\n" ∧
    (fat32_read_file 10 (demo_dev fat_5_9_12 dir_spaced) demo_vol [] (cstr "AB.TXT") fresh 10240).map
      (fun r => r.ret) = some FAT32_NOT_FOUND ∧
    (fat32_read_file 10 (demo_dev fat_5_9_12 dir_spaced) demo_vol [] (cstr "A B.TXT") fresh 10240).map
      (fun r => r.ret) = some 7 := by
  decide

/-- What the listing prints: when the root-directory block `blk` is read, the
listing prints the header, then in record order one line for each record that precedes
the first record starting with 0, is not deleted and has attribute bit 3 clear,
then the footer.  A line is the display name, two spaces and the size in
decimal in parentheses; the display name is the non-space bytes of the base
followed, iff the first extension byte is not a space, by `.` and the non-space
bytes of the extension.  For a name field whose base and extension have spaces
only at their end this is the trimmed base followed by `.` and the trimmed
extension iff the extension is not all spaces. -/
theorem list_files_output (dev : Device) (st : Fat32) (log out : List Nat) (blk : Block)
    (hread : dev log.length (cluster_to_sector st st.boot_sector.root_cluster) = some blk) :
    (fat32_list_files dev st log out).1 =
      out ++ list_header
        ++ (listed blk).flatMap (fun e => list_line (entry_name blk e) (entry_size blk e))
        ++ list_footer ∧
    ∀ e, Padded ((entry_name blk e).take 8) → Padded (((entry_name blk e).drop 8).take 3) →
      display_name (entry_name blk e) = spec_display_name (entry_name blk e) := by
  constructor
  · have h1 : uart_puts [] list_title ++ uart_puts [] list_rule = list_header := by decide
    have h2 : uart_puts [] list_rule = list_footer := by decide
    simp only [fat32_list_files, sd_read_block, hread]
    rw [uart_puts_append, list_loop_eq, uart_puts_append _ list_rule, uart_puts_append out]
    unfold listed
    rw [List.range_eq_range', ← h1, ← h2]
    simp only [List.append_assoc]
  · intro e hb hx
    unfold display_name spec_display_name
    rw [filter_eq_trim _ hb, filter_eq_trim _ hx]
    have hx3 : ((entry_name blk e).drop 8).take 3
        = (entry_name blk e).getD 8 0 :: [rd8 blk (32 * e + 9), rd8 blk (32 * e + 10)] := rfl
    rw [hx3] at hx ⊢
    by_cases hc : (entry_name blk e).getD 8 0 = 32
    · have := (head_ne_space_iff _ _ hx).not.mp (by simpa using hc)
      rw [if_neg (by simpa using hc), if_neg this]
    · rw [if_pos hc, if_pos ((head_ne_space_iff _ _ hx).mp hc)]

/-- The listing of a directory with one volume label and the records
`TEST    TXT` and `README     `: exactly the lines of `TEST.TXT` and `README`
are printed. -/
theorem list_files_output_witness :
    listed dir_listing = [1, 2] ∧
    (fat32_list_files (demo_dev fat_5_9_12 dir_listing) demo_vol [] []).1 =
      [] ++ list_header
        ++ (cstr "TEST.TXT  (1300 bytes)\r\n" ++ cstr "README  (42 bytes)\r\n")
        ++ list_footer :=
  ⟨by decide, by
    have hl : listed dir_listing = [1, 2] := by decide
    have e1 : entry_size dir_listing 1 = 1300 := by decide
    have e2 : entry_size dir_listing 2 = 42 := by decide
    have d1 : decimal 1300 = [49, 51, 48, 48] := by simp [decimal]
    have d2 : decimal 42 = [52, 50] := by simp [decimal]
    have n1 : display_name (entry_name dir_listing 1) = cstr "TEST.TXT" := by decide
    have n2 : display_name (entry_name dir_listing 2) = cstr "README" := by decide
    rw [(list_files_output (demo_dev fat_5_9_12 dir_listing) demo_vol [] [] dir_listing rfl).1, hl]
    simp only [List.flatMap_cons, List.flatMap_nil, list_line, e1, e2, d1, d2, n1, n2]
    decide⟩

/-! ## Reassembly of a file along its chain (C1) -/

theorem length_block_bytes (blk : Block) : (block_bytes blk).length = 512 := by
  simp [block_bytes]

theorem take_block_bytes (blk : Block) (len : Nat) (h : len ≤ 512) :
    (block_bytes blk).take len = (List.range len).map (rd8 blk) := by
  unfold block_bytes
  rw [← List.map_take, List.take_range, Nat.min_eq_left h]

theorem buffer_bytes_memcpy (buf : Nat → Nat) (off : Nat) (src : Block) (len : Nat)
    (h : len ≤ 512) :
    buffer_bytes (memcpy_at buf off src len) (off + len)
      = buffer_bytes buf off ++ (block_bytes src).take len := by
  rw [take_block_bytes src len h]
  unfold buffer_bytes
  rw [List.range_add, List.map_append, List.map_map]
  congr 1
  · apply List.map_congr_left
    intro i hi
    have : i < off := List.mem_range.mp hi
    simp only [memcpy_at]
    rw [if_neg (by omega)]
  · apply List.map_congr_left
    intro i hi
    have : i < len := List.mem_range.mp hi
    simp only [memcpy_at, Function.comp]
    rw [if_pos (by omega)]
    congr 1
    omega

theorem take_append_block (l1 l2 : List Nat) (u m : Nat) (h : l1.length = u) :
    (l1 ++ l2).take m = l1.take (if m > u then u else m) ++ l2.take (m - u) := by
  rw [List.take_append_eq_append_take, h]
  congr 1
  split
  · rw [List.take_of_length_le (by omega), List.take_of_length_le (by omega)]
  · rfl

theorem length_flatMap_blocks (f : Nat → List Nat) (hf : ∀ j, (f j).length = 512) :
    ∀ (k s : Nat), ((List.range' s k).flatMap f).length = 512 * k := by
  intro k
  induction k with
  | zero => intro s; simp
  | succ k ih =>
    intro s
    rw [List.range'_succ, List.flatMap_cons, List.length_append, hf, ih]
    omega

theorem sector_loop_spec (disk : Nat → Block) (dev : Device) (hdev : ∀ t b, dev t b = some (disk b))
    (sector n : Nat) :
    ∀ (k s br : Nat) (buf : Nat → Nat) (log : List Nat), br ≤ n →
      ∃ buf1 log1,
        sector_loop dev sector n k s br buf log
          = (some (if br + 512 * k > n then n else br + 512 * k), buf1, log1) ∧
        buffer_bytes buf1 (if br + 512 * k > n then n else br + 512 * k)
          = buffer_bytes buf br
            ++ ((List.range' s k).flatMap
                (fun j => block_bytes (disk ((sector + j) % 4294967296)))).take (n - br) := by
  intro k
  induction k with
  | zero =>
    intro s br buf log hle
    refine ⟨buf, log, ?_, ?_⟩
    · rw [sector_loop, if_neg (by omega)]
      simp
    · rw [if_neg (by omega)]; simp
  | succ k ih =>
    intro s br buf log hle
    rw [sector_loop]
    by_cases hge : br ≥ n
    · have hbr : br = n := by omega
      refine ⟨buf, log, ?_, ?_⟩
      · rw [if_pos hge]
        congr 3
        split <;> omega
      · subst hbr
        have : (if br + 512 * (k + 1) > br then br else br + 512 * (k + 1)) = br := by
          split <;> omega
        rw [this]
        simp
    · rw [if_neg hge]
      simp only [sd_read_block, hdev]
      obtain ⟨buf1, log1, h1, h2⟩ := ih (s + 1)
        (br + (if n - br > 512 then 512 else n - br))
        (memcpy_at buf br (disk ((sector + s) % 4294967296)) (if n - br > 512 then 512 else n - br))
        (log ++ [(sector + s) % 4294967296]) (by split <;> omega)
      have hidx : (if br + (if n - br > 512 then 512 else n - br) + 512 * k > n then n
            else br + (if n - br > 512 then 512 else n - br) + 512 * k)
          = (if br + 512 * (k + 1) > n then n else br + 512 * (k + 1)) := by
        split <;> split <;> split <;> omega
      rw [hidx] at h1 h2
      refine ⟨buf1, log1, h1, ?_⟩
      have hsub : n - (br + (if n - br > 512 then 512 else n - br)) = n - br - 512 := by
        split <;> omega
      rw [h2, buffer_bytes_memcpy _ _ _ _ (by split <;> omega), List.range'_succ,
        List.flatMap_cons, take_append_block _ _ 512 _ (length_block_bytes _), List.append_assoc,
        hsub]

theorem cluster_to_sector_eq (st : Fat32) (hm : Mounted st) (x j : Nat) (h2 : 2 ≤ x)
    (hx : x < 0x0FFFFFF8)
    (hfit : data_origin st + (x - 2) * st.boot_sector.sectors_per_cluster
      + st.boot_sector.sectors_per_cluster ≤ 4294967296)
    (hj : j < st.boot_sector.sectors_per_cluster) :
    (cluster_to_sector st x + j) % 4294967296
      = data_origin st + (x - 2) * st.boot_sector.sectors_per_cluster + j := by
  obtain ⟨-, hd⟩ := hm
  unfold cluster_to_sector
  unfold data_origin at hfit ⊢
  rw [hd]
  have e1 : (x + 4294967296 - 2) % 4294967296 = x - 2 := by omega
  rw [e1]
  generalize st.boot_sector.fat_count * st.boot_sector.fat_size_32 = a at hfit ⊢
  generalize (x - 2) * st.boot_sector.sectors_per_cluster = b at hfit ⊢
  omega

theorem cluster_blocks_eq (disk : Nat → Block) (st : Fat32) (hm : Mounted st) (x : Nat)
    (h2 : 2 ≤ x) (hx : x < 0x0FFFFFF8)
    (hfit : data_origin st + (x - 2) * st.boot_sector.sectors_per_cluster
      + st.boot_sector.sectors_per_cluster ≤ 4294967296) :
    (List.range' 0 st.boot_sector.sectors_per_cluster).flatMap
        (fun j => block_bytes (disk ((cluster_to_sector st x + j) % 4294967296)))
      = cluster_bytes disk st x := by
  unfold cluster_bytes
  rw [List.range_eq_range']
  apply List.flatMap_congr
  intro j hj
  have : j < st.boot_sector.sectors_per_cluster := by
    have := List.mem_range'_1.mp hj
    omega
  rw [cluster_to_sector_eq st hm x j h2 hx hfit this]

theorem length_cluster_bytes (disk : Nat → Block) (st : Fat32) (x : Nat) :
    (cluster_bytes disk st x).length = 512 * st.boot_sector.sectors_per_cluster := by
  unfold cluster_bytes
  rw [List.range_eq_range']
  exact length_flatMap_blocks _ (fun j => length_block_bytes _) _ _

theorem get_next_cluster_eq (disk : Nat → Block) (dev : Device)
    (hdev : ∀ t b, dev t b = some (disk b)) (st : Fat32) (log : List Nat) (c : Nat) :
    (get_next_cluster dev st log c).1 = fat_entry disk st c := by
  simp [get_next_cluster, sd_read_block, hdev, fat_entry]

theorem cluster_loop_spec (disk : Nat → Block) (dev : Device)
    (hdev : ∀ t b, dev t b = some (disk b)) (st : Fat32) (hm : Mounted st) (n : Nat) :
    ∀ (chain : List Nat) (fuel c br : Nat) (buf : Nat → Nat) (log : List Nat),
      FatChain disk st c chain → br ≤ n →
      n - br ≤ chain.length * (512 * st.boot_sector.sectors_per_cluster) →
      chain.length ≤ fuel →
      ∃ r, cluster_loop dev st n fuel c br buf log = some r ∧ r.ret = toInt32 n ∧
        buffer_bytes r.buffer n
          = buffer_bytes buf br ++ (chain_bytes disk st chain).take (n - br) := by
  have hdone : ∀ (chain : List Nat) (fuel c br : Nat) (buf : Nat → Nat) (log : List Nat),
      br = n →
      ∃ r, cluster_loop dev st n fuel c br buf log = some r ∧ r.ret = toInt32 n ∧
        buffer_bytes r.buffer n
          = buffer_bytes buf br ++ (chain_bytes disk st chain).take (n - br) := by
    intro chain fuel c br buf log hbr
    subst hbr
    refine ⟨⟨toInt32 br, buf, log⟩, ?_, rfl, by simp⟩
    cases fuel with
    | zero => rw [cluster_loop, if_neg (by omega)]
    | succ f => rw [cluster_loop, if_neg (by omega)]
  intro chain
  induction chain with
  | nil =>
    intro fuel c br buf log _ hle hlen _
    exact hdone [] fuel c br buf log (by simp at hlen; omega)
  | cons x xs ih =>
    intro fuel c br buf log hch hle hlen hfuel
    by_cases hbr : br = n
    · exact hdone (x :: xs) fuel c br buf log hbr
    · obtain ⟨hcx, h2, hx, hfit, hrest⟩ := hch
      subst hcx
      cases fuel with
      | zero => simp at hfuel
      | succ f =>
        rw [cluster_loop, if_pos ⟨hx, by omega⟩]
        obtain ⟨buf1, log1, h1, hp1⟩ := sector_loop_spec disk dev hdev (cluster_to_sector st c) n
          st.boot_sector.sectors_per_cluster 0 br buf log hle
        rw [cluster_blocks_eq disk st hm c h2 hx hfit] at hp1
        simp only [h1]
        rw [get_next_cluster_eq disk dev hdev]
        simp only [List.length_cons] at hlen hfuel
        have hmul : (xs.length + 1) * (512 * st.boot_sector.sectors_per_cluster)
            = xs.length * (512 * st.boot_sector.sectors_per_cluster)
              + 512 * st.boot_sector.sectors_per_cluster := by ring
        rw [hmul] at hlen
        generalize hbr1 : (if br + 512 * st.boot_sector.sectors_per_cluster > n then n
          else br + 512 * st.boot_sector.sectors_per_cluster) = br1 at hp1 h1 ⊢
        have hbr1le : br1 ≤ n := by rw [← hbr1]; split <;> omega
        obtain ⟨r, hr, hret, hbuf⟩ := ih f (fat_entry disk st c) br1 buf1
          (get_next_cluster dev st log1 c).2 hrest hbr1le
          (by rw [← hbr1]; split <;> omega) (by omega)
        refine ⟨r, hr, hret, ?_⟩
        have hsub : n - br1 = n - br - 512 * st.boot_sector.sectors_per_cluster := by
          rw [← hbr1]; split <;> omega
        have hcb := length_cluster_bytes disk st c
        have htk : (cluster_bytes disk st c).take
              (if n - br > 512 * st.boot_sector.sectors_per_cluster
                then 512 * st.boot_sector.sectors_per_cluster else n - br)
            = (cluster_bytes disk st c).take (n - br) := by
          split
          · rw [List.take_of_length_le (by omega), List.take_of_length_le (by omega)]
          · rfl
        rw [hbuf, hp1]
        unfold chain_bytes
        rw [List.flatMap_cons, take_append_block _ _ _ _ hcb, List.append_assoc, hsub, htk]

theorem fat32_init_mounted (dev : Device) (st : Fat32) (log : List Nat)
    (h : (fat32_init dev st log).1 = FAT32_OK) : Mounted (fat32_init dev st log).2.1 := by
  unfold fat32_init at h ⊢
  simp only [sd_read_block] at h ⊢
  cases hd : dev log.length 0 with
  | none => simp [hd, FAT32_ERROR, FAT32_OK] at h
  | some blk =>
    simp only [hd] at h ⊢
    split
    · rename_i hc
      rw [if_pos hc] at h
      simp [FAT32_ERROR, FAT32_OK] at h
    · exact ⟨rfl, rfl⟩

theorem read_file_chain (disk : Nat → Block) (dev : Device) (st : Fat32) (log name : List Nat)
    (buffer : Nat → Nat) (max_size e : Nat) (chain : List Nat) (fuel : Nat)
    (hdev : ∀ t b, dev t b = some (disk b)) (hm : Mounted st)
    (hfind : dir_search (disk (cluster_to_sector st st.boot_sector.root_cluster))
      (to_fat_name name) 16 0 = some e)
    (hmax : entry_size (disk (cluster_to_sector st st.boot_sector.root_cluster)) e ≤ max_size)
    (hchain : FatChain disk st
      (entry_cluster (disk (cluster_to_sector st st.boot_sector.root_cluster)) e) chain)
    (hlen : entry_size (disk (cluster_to_sector st st.boot_sector.root_cluster)) e
      ≤ chain.length * st.boot_sector.sectors_per_cluster * 512)
    (hfuel : chain.length ≤ fuel) :
    ∃ r, fat32_read_file fuel dev st log name buffer max_size = some r ∧
      r.ret = toInt32 (entry_size (disk (cluster_to_sector st st.boot_sector.root_cluster)) e) ∧
      buffer_bytes r.buffer (entry_size (disk (cluster_to_sector st st.boot_sector.root_cluster)) e)
        = (chain_bytes disk st chain).take
            (entry_size (disk (cluster_to_sector st st.boot_sector.root_cluster)) e) := by
  simp only [fat32_read_file, sd_read_block, hdev, hfind]
  rw [if_neg (by omega)]
  have hmul : chain.length * (512 * st.boot_sector.sectors_per_cluster)
      = chain.length * st.boot_sector.sectors_per_cluster * 512 := by ring
  obtain ⟨r, hr, hret, hbuf⟩ := cluster_loop_spec disk dev hdev st hm
    (entry_size (disk (cluster_to_sector st st.boot_sector.root_cluster)) e) chain fuel
    (entry_cluster (disk (cluster_to_sector st st.boot_sector.root_cluster)) e) 0 buffer
    (log ++ [cluster_to_sector st st.boot_sector.root_cluster]) hchain (Nat.zero_le _)
    (by rw [hmul]; omega) hfuel
  refine ⟨r, hr, hret, ?_⟩
  rw [hbuf]
  simp [buffer_bytes]

/-- C1 amended: on a mounted volume whose reads all succeed and return the
disk's blocks, if the matched record has starting unit `c0` and declared size
`n <= max_size` with `n < 2^31`, and the table chains `c0` through the units of
`chain` (each in `[2, 0x0FFFFFF8)`, with block indices that fit 32 bits) and
`chain.length * sectors_per_cluster * 512 >= n`, then with enough fuel
`fat32_read_file` returns exactly `n` and the first `n` bytes of the buffer are
the first `n` bytes of the concatenation, in chain order, of the blocks of the
units, unit `c` starting at block
`reserved_sectors + fat_count * fat_size_32 + (c - 2) * sectors_per_cluster`. -/
theorem read_file_reassembles (disk : Nat → Block) (dev : Device) (st : Fat32)
    (log name : List Nat) (buffer : Nat → Nat) (max_size e : Nat) (chain : List Nat) (fuel : Nat)
    (hdev : ∀ t b, dev t b = some (disk b)) (hm : Mounted st)
    (hfind : dir_search (disk (cluster_to_sector st st.boot_sector.root_cluster))
      (to_fat_name name) 16 0 = some e)
    (hmax : entry_size (disk (cluster_to_sector st st.boot_sector.root_cluster)) e ≤ max_size)
    (h31 : entry_size (disk (cluster_to_sector st st.boot_sector.root_cluster)) e < 2147483648)
    (hchain : FatChain disk st
      (entry_cluster (disk (cluster_to_sector st st.boot_sector.root_cluster)) e) chain)
    (hlen : entry_size (disk (cluster_to_sector st st.boot_sector.root_cluster)) e
      ≤ chain.length * st.boot_sector.sectors_per_cluster * 512)
    (hfuel : chain.length ≤ fuel) :
    ∃ r, fat32_read_file fuel dev st log name buffer max_size = some r ∧
      r.ret = (entry_size (disk (cluster_to_sector st st.boot_sector.root_cluster)) e : Int) ∧
      buffer_bytes r.buffer (entry_size (disk (cluster_to_sector st st.boot_sector.root_cluster)) e)
        = (chain_bytes disk st chain).take
            (entry_size (disk (cluster_to_sector st st.boot_sector.root_cluster)) e) := by
  obtain ⟨r, hr, hret, hbuf⟩ := read_file_chain disk dev st log name buffer max_size e chain fuel
    hdev hm hfind hmax hchain hlen hfuel
  refine ⟨r, hr, ?_, hbuf⟩
  rw [hret, toInt32, if_pos h31]

/-- C1 amended, at the chain 5 -> 9 -> 12 -> end with one sector per cluster
and a declared size of 1300 bytes (less than the 1536 bytes of three units):
the call returns 1300 and the buffer holds blocks 9 and 13 followed by the
first 276 bytes of block 16. -/
theorem read_file_reassembles_witness :
    entry_cluster (demo_disk fat_5_9_12 dir_test
      (cluster_to_sector demo_vol demo_vol.boot_sector.root_cluster)) 0 = 5 ∧
    entry_size (demo_disk fat_5_9_12 dir_test
      (cluster_to_sector demo_vol demo_vol.boot_sector.root_cluster)) 0 = 1300 ∧
    fat_entry (demo_disk fat_5_9_12 dir_test) demo_vol 12 = 0x0FFFFFFF ∧
    ∃ r, fat32_read_file 3 (demo_dev fat_5_9_12 dir_test) demo_vol [] (cstr "test.txt") fresh 10240
        = some r ∧
      r.ret = (entry_size (demo_disk fat_5_9_12 dir_test
        (cluster_to_sector demo_vol demo_vol.boot_sector.root_cluster)) 0 : Int) ∧
      buffer_bytes r.buffer (entry_size (demo_disk fat_5_9_12 dir_test
          (cluster_to_sector demo_vol demo_vol.boot_sector.root_cluster)) 0)
        = (chain_bytes (demo_disk fat_5_9_12 dir_test) demo_vol [5, 9, 12]).take
            (entry_size (demo_disk fat_5_9_12 dir_test
              (cluster_to_sector demo_vol demo_vol.boot_sector.root_cluster)) 0) :=
  ⟨by decide, by decide, by decide,
    read_file_reassembles (demo_disk fat_5_9_12 dir_test) (demo_dev fat_5_9_12 dir_test) demo_vol []
      (cstr "test.txt") fresh 10240 0 [5, 9, 12] 3 (fun _ _ => rfl) ⟨by decide, by decide⟩
      (by decide) (by decide) (by decide) (by decide) (by decide) (by decide)⟩

theorem big_fat_word_lt (c : Nat) : big_fat_word c < 4294967296 := by
  unfold big_fat_word
  split
  · omega
  · split <;> omega

theorem rd32_big_fat (j i : Nat) : rd32 (big_fat j) (4 * i) = big_fat_word (128 * j + i) := by
  have h0 : (4 * i) / 4 = i := by omega
  have h1 : (4 * i + 1) / 4 = i := by omega
  have h2 : (4 * i + 2) / 4 = i := by omega
  have h3 : (4 * i + 3) / 4 = i := by omega
  have m0 : (4 * i) % 4 = 0 := by omega
  have m1 : (4 * i + 1) % 4 = 1 := by omega
  have m2 : (4 * i + 2) % 4 = 2 := by omega
  have m3 : (4 * i + 3) % 4 = 3 := by omega
  have hw := big_fat_word_lt (128 * j + i)
  simp only [rd32, rd8, big_fat, h0, h1, h2, h3, m0, m1, m2, m3]
  norm_num
  omega

theorem big_fat_entry (c : Nat) (hc : c < 32771) :
    fat_entry big_disk big_vol c = big_fat_word c := by
  have hfs : big_vol.fat_start = 4 := by decide
  unfold fat_entry
  rw [hfs]
  have hb : (4 + c * 4 % 4294967296 / 512) % 4294967296 = 4 + c / 128 := by omega
  have ho : c * 4 % 4294967296 % 512 = 4 * (c % 128) := by omega
  rw [hb, ho]
  have hd : big_disk (4 + c / 128) = big_fat (c / 128) := by
    unfold big_disk
    have hsub : 4 + c / 128 - 4 = c / 128 := by omega
    rw [if_neg (by omega), if_neg (by omega), if_pos (by omega), hsub]
  rw [hd, rd32_big_fat]
  have hcc : 128 * (c / 128) + c % 128 = c := by omega
  rw [hcc]
  have hw : big_fat_word c < 268435456 := by
    unfold big_fat_word
    split
    · omega
    · split <;> omega
  have := Nat.and_pow_two_sub_one_eq_mod (big_fat_word c) 28
  norm_num at this
  rw [this]
  omega

theorem big_chain :
    ∀ (m c : Nat), 3 ≤ c → c + m ≤ 32771 → FatChain big_disk big_vol c (List.range' c m) := by
  intro m
  induction m with
  | zero => intro c _ _; simp [FatChain]
  | succ m ih =>
    intro c h3 hle
    have hspc : big_vol.boot_sector.sectors_per_cluster = 128 := by decide
    have hdo : data_origin big_vol = 304 := by decide
    rw [List.range'_succ]
    refine ⟨rfl, by omega, by omega, by rw [hspc, hdo]; omega, ?_⟩
    cases m with
    | zero => simp [FatChain]
    | succ m =>
      have he : fat_entry big_disk big_vol c = c + 1 := by
        rw [big_fat_entry c (by omega)]
        unfold big_fat_word
        rw [if_pos (by omega)]
      rw [he]
      exact ih (c + 1) (by omega) (by omega)

/-- C1 as stated fails for a declared size of 2^31 bytes: the volume has 128
sectors per cluster, `BIG.BIN` starts at unit 3 and declares 2^31 bytes, the
table chains 3 -> 4 -> ... -> 32770 -> end (32768 units, exactly 2^31 bytes),
every read succeeds and `max_size` is 2^31; the call copies all the bytes and
returns `(int)2147483648 = -2147483648`, not the declared size. -/
theorem read_file_huge_size_negative :
    Mounted big_vol ∧ big_vol.boot_sector.sectors_per_cluster = 128 ∧
    cluster_to_sector big_vol big_vol.boot_sector.root_cluster = 304 ∧
    dir_search (big_disk 304) (to_fat_name (cstr "BIG.BIN")) 16 0 = some 0 ∧
    entry_cluster (big_disk 304) 0 = 3 ∧
    entry_size (big_disk 304) 0 = 2147483648 ∧
    FatChain big_disk big_vol 3 (List.range' 3 32768) ∧
    fat_entry big_disk big_vol 32770 = 0x0FFFFFFF ∧
    (fat32_read_file 32768 big_dev big_vol [] (cstr "BIG.BIN") fresh 2147483648).map
      (fun r => r.ret) = some (-2147483648) := by
  have hm : Mounted big_vol := ⟨by decide, by decide⟩
  have hspc : big_vol.boot_sector.sectors_per_cluster = 128 := by decide
  have hroot : cluster_to_sector big_vol big_vol.boot_sector.root_cluster = 304 := by decide
  have hfind : dir_search (big_disk 304) (to_fat_name (cstr "BIG.BIN")) 16 0 = some 0 := by decide
  have hclu : entry_cluster (big_disk 304) 0 = 3 := by decide
  have hsize : entry_size (big_disk 304) 0 = 2147483648 := by decide
  have hchain : FatChain big_disk big_vol 3 (List.range' 3 32768) :=
    big_chain 32768 3 (by omega) (by omega)
  refine ⟨hm, hspc, hroot, hfind, hclu, hsize, hchain, ?_, ?_⟩
  · rw [big_fat_entry 32770 (by omega)]
    decide
  · obtain ⟨r, hr, hret, -⟩ := read_file_chain big_disk big_dev big_vol [] (cstr "BIG.BIN") fresh
      2147483648 0 (List.range' 3 32768) 32768 (fun _ _ => rfl) hm
      (by rw [hroot]; exact hfind) (by rw [hroot, hsize]) (by rw [hroot, hclu]; exact hchain)
      (by rw [hroot, hsize, hspc]; simp) (by simp)
    rw [hr, Option.map_some', hret, hroot, hsize]
    decide

/-! ## The name conversion on short names without a dot -/

theorem base_loop_exit (filename : List Nat) :
    ∀ (fuel i j : Nat) (fat_name : List Nat), 8 ≤ j + fuel →
      ¬ (filename.getD (base_loop filename fuel i j fat_name).1 0 ≠ 0 ∧
         filename.getD (base_loop filename fuel i j fat_name).1 0 ≠ 46 ∧
         (base_loop filename fuel i j fat_name).2.1 < 8) := by
  intro fuel
  induction fuel with
  | zero =>
    intro i j fat_name h
    simp only [base_loop]
    omega
  | succ fuel ih =>
    intro i j fat_name h
    rw [base_loop]
    split
    · exact ih _ _ _ (by omega)
    · assumption

theorem ext_loop_exit (filename : List Nat) :
    ∀ (fuel i j : Nat) (fat_name : List Nat), 11 ≤ j + fuel →
      ¬ (filename.getD (ext_loop filename fuel i j fat_name).1 0 ≠ 0 ∧
         (ext_loop filename fuel i j fat_name).2.1 < 11) := by
  intro fuel
  induction fuel with
  | zero =>
    intro i j fat_name h
    simp only [ext_loop]
    omega
  | succ fuel ih =>
    intro i j fat_name h
    rw [ext_loop]
    split
    · exact ih _ _ _ (by omega)
    · assumption

theorem base_loop_short (name : List Nat) (hlen : name.length ≤ 8)
    (hc : ∀ c ∈ name, c ≠ 0 ∧ c ≠ 46) :
    ∀ (fuel i : Nat), i + fuel = 8 → i ≤ name.length →
      base_loop name fuel i i ((name.take i).map fat_char ++ List.replicate (11 - i) 32)
        = (name.length, name.length,
            name.map fat_char ++ List.replicate (11 - name.length) 32) := by
  intro fuel
  induction fuel with
  | zero =>
    intro i h hi
    have : i = name.length := by omega
    subst this
    simp [base_loop]
  | succ fuel ih =>
    intro i h hi
    rw [base_loop]
    by_cases hlt : i < name.length
    · have hg : name.getD i 0 = name[i] := List.getD_eq_getElem _ _ hlt
      have hne := hc name[i] (List.getElem_mem hlt)
      rw [if_pos ⟨by rw [hg]; exact hne.1, by rw [hg]; exact hne.2, by omega⟩, hg]
      have hset : ((name.take i).map fat_char ++ List.replicate (11 - i) 32).set i (fat_char name[i])
          = (name.take (i + 1)).map fat_char ++ List.replicate (11 - (i + 1)) 32 := by
        have hl : ((name.take i).map fat_char).length = i := by simp; omega
        rw [List.set_append_right _ _ (by omega), hl, Nat.sub_self]
        have hr : 11 - i = (11 - (i + 1)) + 1 := by omega
        rw [hr, List.replicate_succ, List.set_cons_zero, List.take_succ,
          List.getElem?_eq_getElem hlt]
        simp only [Option.toList, List.map_append, List.map_cons, List.map_nil, List.append_assoc,
          List.singleton_append]
      rw [hset]
      exact ih (i + 1) (by omega) (by omega)
    · have hi' : i = name.length := by omega
      subst hi'
      rw [if_neg (by simp [List.getD_eq_default])]
      simp

theorem to_fat_name_short (name : List Nat) (hlen : name.length ≤ 8)
    (hc : ∀ c ∈ name, c ≠ 0 ∧ c ≠ 46) :
    to_fat_name name = name.map fat_char ++ List.replicate (11 - name.length) 32 := by
  have h := base_loop_short name hlen hc 8 0 rfl (Nat.zero_le _)
  simp only [List.take_zero, List.map_nil, List.nil_append, Nat.sub_zero] at h
  unfold to_fat_name
  simp only [h]
  rw [if_neg (by simp [List.getD_eq_default])]

theorem fat_char_eq_upper (c : Nat) (h : c ≤ 122) : fat_char c = upper c := by
  unfold fat_char upper
  by_cases h1 : c ≥ 97
  · rw [if_pos h1, if_pos ⟨h1, h⟩]
  · rw [if_neg h1, if_neg (by omega)]

theorem to_fat_name_eq_spec (name : List Nat) (hlen : name.length ≤ 8)
    (hc : ∀ c ∈ name, c ≠ 0 ∧ c ≠ 46 ∧ c ≤ 122) :
    to_fat_name name = spec_fat_name name := by
  rw [to_fat_name_short name hlen (fun c h => ⟨(hc c h).1, (hc c h).2.1⟩)]
  have htw : name.takeWhile (fun c => c ≠ 46) = name := by
    rw [List.takeWhile_eq_self_iff]
    intro c h
    simpa using (hc c h).2.1
  have hdw : name.dropWhile (fun c => c ≠ 46) = [] := by
    rw [List.dropWhile_eq_nil_iff]
    intro c h
    simpa using (hc c h).2.1
  unfold spec_fat_name pad_upper
  rw [htw, hdw, List.take_of_length_le hlen]
  have hmap : name.map fat_char = name.map upper :=
    List.map_congr_left (fun c h => fat_char_eq_upper c (hc c h).2.2)
  have hrep : List.replicate (11 - name.length) 32
      = List.replicate (8 - name.length) 32 ++ List.replicate 3 32 := by
    rw [List.append_replicate_replicate]
    congr 1
    omega
  rw [hmap, hrep]
  simp

theorem name_match_iff (buf : Block) (e : Nat) (key : List Nat) :
    ∀ (k n0 : Nat), name_match buf e key k n0 = true ↔
      ∀ n, n0 ≤ n → n < n0 + k → rd8 buf (32 * e + n) = key.getD n 0 := by
  intro k
  induction k with
  | zero => intro n0; simp [name_match]; intro n h1 h2; omega
  | succ k ih =>
    intro n0
    rw [name_match]
    by_cases hq : rd8 buf (32 * e + n0) = key.getD n0 0
    · rw [if_neg (by simpa using hq), ih]
      constructor
      · intro h n h1 h2
        by_cases hn : n = n0
        · subst hn; exact hq
        · exact h n (by omega) (by omega)
      · intro h n h1 h2
        exact h n (by omega) (by omega)
    · rw [if_pos hq]
      constructor
      · intro h; exact absurd h (by simp)
      · intro h; exact absurd (h n0 (le_refl _) (by omega)) hq

theorem dir_search_complete (buf : Block) (key : List Nat) :
    ∀ (k e0 e : Nat), e0 ≤ e → e < e0 + k →
      (∀ e', e0 ≤ e' → e' ≤ e → rd8 buf (32 * e') ≠ 0) →
      rd8 buf (32 * e) ≠ 0xE5 → name_match buf e key 11 0 = true →
      (∀ e', e0 ≤ e' → e' < e → rd8 buf (32 * e') = 0xE5 ∨ name_match buf e' key 11 0 = false) →
      dir_search buf key k e0 = some e := by
  intro k
  induction k with
  | zero => intro e0 e h1 h2; omega
  | succ k ih =>
    intro e0 e h1 h2 hlive hnd hm hfirst
    rw [dir_search, if_neg (hlive e0 (le_refl _) h1)]
    by_cases heq : e0 = e
    · subst heq
      rw [if_neg hnd, if_pos hm]
    · have hrec := ih (e0 + 1) e (by omega) (by omega)
        (fun e' a b => hlive e' (by omega) b) hnd hm (fun e' a b => hfirst e' (by omega) b)
      rcases hfirst e0 (le_refl _) (by omega) with hd | hn
      · rw [if_pos hd, hrec]
      · by_cases hd : rd8 buf (32 * e0) = 0xE5
        · rw [if_pos hd, hrec]
        · rw [if_neg hd, if_neg (by simp [hn]), hrec]

theorem entry_name_getD (blk : Block) (e n : Nat) (hn : n < 11) :
    (entry_name blk e).getD n 0 = rd8 blk (32 * e + n) := by
  have hl : n < (entry_name blk e).length := by simpa [entry_name] using hn
  rw [List.getD_eq_getElem _ _ hl]
  simp [entry_name]

theorem name_match_iff_entry_name (blk : Block) (e : Nat) (key : List Nat)
    (hk : key.length = 11) : name_match blk e key 11 0 = true ↔ entry_name blk e = key := by
  rw [name_match_iff]
  constructor
  · intro h
    apply List.ext_getElem (by simp [entry_name, hk])
    intro n h1 h2
    have hn : n < 11 := by omega
    have h3 := h n (Nat.zero_le _) (by omega)
    rw [← entry_name_getD blk e n hn, List.getD_eq_getElem _ _ h1, List.getD_eq_getElem _ _ h2] at h3
    exact h3
  · intro h n _ hn
    rw [← h]
    exact (entry_name_getD blk e n (by omega)).symm

/-- The part of the lookup of short names that the code gets right: for a
name of fewer than 8 bytes, none of them NUL, `.` or above `z`, the key is the
upper-cased name padded with spaces to 11 bytes, and the lookup returns the
first live record (not deleted, before the first record starting with 0) whose
name field is that key. -/
theorem short_name_lookup (blk : Block) (name : List Nat) (e : Nat)
    (hlen : name.length < 8) (hc : ∀ c ∈ name, c ≠ 0 ∧ c ≠ 46 ∧ c ≤ 122) (he : e < 16)
    (hlive : ∀ e', e' ≤ e → rd8 blk (32 * e') ≠ 0) (hnd : rd8 blk (32 * e) ≠ 0xE5)
    (hname : entry_name blk e = name.map upper ++ List.replicate (11 - name.length) 32)
    (hfirst : ∀ e', e' < e → rd8 blk (32 * e') = 0xE5 ∨
      entry_name blk e' ≠ name.map upper ++ List.replicate (11 - name.length) 32) :
    to_fat_name name = name.map upper ++ List.replicate (11 - name.length) 32 ∧
    dir_search blk (to_fat_name name) 16 0 = some e := by
  have hkey : to_fat_name name = name.map upper ++ List.replicate (11 - name.length) 32 := by
    rw [to_fat_name_short name (by omega) (fun c h => ⟨(hc c h).1, (hc c h).2.1⟩)]
    rw [List.map_congr_left (fun c h => fat_char_eq_upper c (hc c h).2.2)]
  refine ⟨hkey, ?_⟩
  have hk : (to_fat_name name).length = 11 := by
    rw [hkey]
    simp
    omega
  apply dir_search_complete blk _ 16 0 e (Nat.zero_le _) (by omega)
    (fun e' _ h => hlive e' h) hnd
  · rw [name_match_iff_entry_name _ _ _ hk, hkey]
    exact hname
  · intro e' _ h
    rcases hfirst e' h with hd | hn
    · exact Or.inl hd
    · right
      rw [← hkey] at hn
      rw [← Bool.not_eq_true, name_match_iff_entry_name _ _ _ hk]
      exact hn

/-! ## The allocation-table walker (C11) -/

theorem rd16_lt (buf : Block) (off : Nat) : rd16 buf off < 65536 := by
  have h0 := rd8_lt buf off
  have h1 := rd8_lt buf (off + 1)
  unfold rd16
  omega

theorem fat32_init_fat_start (dev : Device) (st : Fat32) (log : List Nat)
    (h : (fat32_init dev st log).1 = FAT32_OK) :
    (fat32_init dev st log).2.1.fat_start = (fat32_init dev st log).2.1.boot_sector.reserved_sectors ∧
    (fat32_init dev st log).2.1.fat_start < 65536 := by
  unfold fat32_init at h ⊢
  simp only [sd_read_block] at h ⊢
  cases hd : dev log.length 0 with
  | none => simp [hd, FAT32_ERROR, FAT32_OK] at h
  | some blk =>
    simp only [hd] at h ⊢
    split
    · rename_i hc
      rw [if_pos hc] at h
      simp [FAT32_ERROR, FAT32_OK] at h
    · exact ⟨rfl, rd16_lt _ _⟩

/-- C11: on a volume mounted by a successful `fat32_init`, for every unit
`u < 2^28` and every device behaviour, `get_next_cluster u` reads exactly one
block, block `fat_start + 4 * u / 512` (with `fat_start` the reserved-sector
count); when that read succeeds the result is the little-endian 32-bit word at
bytes `4 * u % 512 .. + 3` of the block reduced modulo `2^28` (top four bits
cleared), hence below `2^28`; when it fails the result is 0. -/
theorem get_next_cluster_spec (dev0 : Device) (st0 : Fat32) (log0 : List Nat) (dev : Device)
    (log : List Nat) (u : Nat) (hinit : (fat32_init dev0 st0 log0).1 = FAT32_OK)
    (hu : u < 268435456) :
    (fat32_init dev0 st0 log0).2.1.fat_start
      = (fat32_init dev0 st0 log0).2.1.boot_sector.reserved_sectors ∧
    (get_next_cluster dev (fat32_init dev0 st0 log0).2.1 log u).2
      = log ++ [(fat32_init dev0 st0 log0).2.1.fat_start + 4 * u / 512] ∧
    (∀ blk, dev log.length ((fat32_init dev0 st0 log0).2.1.fat_start + 4 * u / 512) = some blk →
      (get_next_cluster dev (fat32_init dev0 st0 log0).2.1 log u).1
        = (rd8 blk (4 * u % 512) + 256 * rd8 blk (4 * u % 512 + 1)
            + 65536 * rd8 blk (4 * u % 512 + 2) + 16777216 * rd8 blk (4 * u % 512 + 3))
          % 268435456 ∧
      (get_next_cluster dev (fat32_init dev0 st0 log0).2.1 log u).1 < 268435456) ∧
    (dev log.length ((fat32_init dev0 st0 log0).2.1.fat_start + 4 * u / 512) = none →
      (get_next_cluster dev (fat32_init dev0 st0 log0).2.1 log u).1 = 0) := by
  obtain ⟨hres, hlt⟩ := fat32_init_fat_start dev0 st0 log0 hinit
  generalize (fat32_init dev0 st0 log0).2.1 = st at hres hlt ⊢
  have hsec : (st.fat_start + u * 4 % 4294967296 / 512) % 4294967296
      = st.fat_start + 4 * u / 512 := by omega
  have hoff : u * 4 % 4294967296 % 512 = 4 * u % 512 := by omega
  have hmask : ∀ x : Nat, x &&& 0x0FFFFFFF = x % 268435456 := by
    intro x
    have := Nat.and_pow_two_sub_one_eq_mod x 28
    norm_num at this
    exact this
  refine ⟨hres, ?_, ?_, ?_⟩
  · simp only [get_next_cluster, sd_read_block, hsec]
    cases hd : dev log.length (st.fat_start + 4 * u / 512) <;> simp
  · intro blk hb
    simp only [get_next_cluster, sd_read_block, hsec, hoff, hb, hmask, rd32]
    exact ⟨trivial, Nat.mod_lt _ (by norm_num)⟩
  · intro hb
    simp only [get_next_cluster, sd_read_block, hsec, hb]

/-- C11 at the demonstration volume: the entry of unit 5 is read from block 4
and is 9. -/
theorem get_next_cluster_spec_witness :
    (fat32_init (fun _ _ => some demo_boot) Fat32.zero []).1 = FAT32_OK ∧
    (get_next_cluster (demo_dev fat_5_9_12 dir_test) demo_vol [6, 9] 5).2 = [6, 9] ++ [4 + 4 * 5 / 512] ∧
    (get_next_cluster (demo_dev fat_5_9_12 dir_test) demo_vol [6, 9] 5).1 = 9 :=
  ⟨by decide,
    (get_next_cluster_spec (fun _ _ => some demo_boot) Fat32.zero [] (demo_dev fat_5_9_12 dir_test)
      [6, 9] 5 (by decide) (by decide)).2.1,
    by decide⟩

/-! ## Termination and read counts of the chain loop (C14) -/

theorem sector_loop_reads (dev : Device) (sector n : Nat) :
    ∀ (k s br : Nat) (buf : Nat → Nat) (log : List Nat), br ≤ n → (br % 512 = 0 ∨ br = n) →
      (∀ br1 buf1 log1, sector_loop dev sector n k s br buf log = (some br1, buf1, log1) →
        br1 ≤ n ∧ (br1 % 512 = 0 ∨ br1 = n) ∧
        log1.length + (n - br1 + 511) / 512 = log.length + (n - br + 511) / 512 ∧
        br ≤ br1 ∧ (1 ≤ k → br < n → br < br1)) ∧
      (∀ buf1 log1, sector_loop dev sector n k s br buf log = (none, buf1, log1) →
        log.length ≤ log1.length ∧ log1.length ≤ log.length + (n - br + 511) / 512) := by
  intro k
  induction k with
  | zero =>
    intro s br buf log hle hal
    constructor
    · intro br1 buf1 log1 h
      simp only [sector_loop, Prod.mk.injEq, Option.some.injEq] at h
      obtain ⟨h1, -, h3⟩ := h
      subst h1 h3
      exact ⟨hle, hal, rfl, le_refl _, by omega⟩
    · intro buf1 log1 h
      simp [sector_loop] at h
  | succ k ih =>
    intro s br buf log hle hal
    rw [sector_loop]
    by_cases hge : br ≥ n
    · rw [if_pos hge]
      constructor
      · intro br1 buf1 log1 h
        simp only [Prod.mk.injEq, Option.some.injEq] at h
        obtain ⟨h1, -, h3⟩ := h
        subst h1 h3
        exact ⟨hle, hal, rfl, le_refl _, by omega⟩
      · intro buf1 log1 h
        simp at h
    · rw [if_neg hge]
      simp only [sd_read_block]
      cases hd : dev log.length ((sector + s) % 4294967296) with
      | none =>
        constructor
        · intro br1 buf1 log1 h
          simp at h
        · intro buf1 log1 h
          simp only [Prod.mk.injEq] at h
          obtain ⟨-, -, h3⟩ := h
          subst h3
          simp only [List.length_append, List.length_singleton]
          omega
      | some blk =>
        simp only []
        obtain ⟨tc, htc⟩ : ∃ tc, tc = (if n - br > 512 then 512 else n - br) := ⟨_, rfl⟩
        rw [← htc]
        have hp : 1 ≤ tc ∧ br + tc ≤ n ∧ ((br + tc) % 512 = 0 ∨ br + tc = n) ∧
            (n - (br + tc) + 511) / 512 + 1 = (n - br + 511) / 512 := by
          rw [htc]
          split <;> omega
        obtain ⟨hp1, hp2, hp3, hp4⟩ := hp
        obtain ⟨ih1, ih2⟩ := ih (s + 1) (br + tc) (memcpy_at buf br blk tc)
          (log ++ [(sector + s) % 4294967296]) hp2 hp3
        constructor
        · intro br1 buf1 log1 h
          obtain ⟨a1, a2, a3, a4, -⟩ := ih1 br1 buf1 log1 h
          simp only [List.length_append, List.length_singleton] at a3
          exact ⟨a1, a2, by omega, by omega, fun _ _ => by omega⟩
        · intro buf1 log1 h
          obtain ⟨b1, b2⟩ := ih2 buf1 log1 h
          simp only [List.length_append, List.length_singleton] at b1 b2
          omega

theorem get_next_cluster_log (dev : Device) (st : Fat32) (log : List Nat) (c : Nat) :
    (get_next_cluster dev st log c).2.length = log.length + 1 := by
  simp only [get_next_cluster, sd_read_block]
  cases dev log.length ((st.fat_start + c * 4 % 4294967296 / 512) % 4294967296) <;> simp

theorem cluster_loop_tally_spec (dev : Device) (st : Fat32) (n : Nat)
    (hspc : 1 ≤ st.boot_sector.sectors_per_cluster) :
    ∀ (fuel c br : Nat) (buf : Nat → Nat) (log : List Nat), br ≤ n → (br % 512 = 0 ∨ br = n) →
      (n - br + 511) / 512 ≤ fuel →
      ∃ r, cluster_loop dev st n fuel c br buf log = some r ∧
        (cluster_loop_tally dev st n fuel c br buf log).1 ≤ (n - br + 511) / 512 ∧
        (cluster_loop_tally dev st n fuel c br buf log).2 ≤ (n - br + 511) / 512 ∧
        r.log.length = log.length + (cluster_loop_tally dev st n fuel c br buf log).1
          + (cluster_loop_tally dev st n fuel c br buf log).2 := by
  intro fuel
  induction fuel with
  | zero =>
    intro c br buf log hle hal hfuel
    have hbr : br = n := by omega
    refine ⟨⟨toInt32 br, buf, log⟩, ?_, ?_, ?_, ?_⟩
    · rw [cluster_loop, if_neg (by omega)]
    · simp [cluster_loop_tally]
    · simp [cluster_loop_tally]
    · simp [cluster_loop_tally]
  | succ fuel ih =>
    intro c br buf log hle hal hfuel
    rw [cluster_loop, cluster_loop_tally]
    by_cases hg : c < 0x0FFFFFF8 ∧ br < n
    · rw [if_pos hg, if_pos hg]
      obtain ⟨hs1, hs2⟩ := sector_loop_reads dev (cluster_to_sector st c) n
        st.boot_sector.sectors_per_cluster 0 br buf log hle hal
      cases hs : sector_loop dev (cluster_to_sector st c) n
          st.boot_sector.sectors_per_cluster 0 br buf log with
      | mk res rest =>
        obtain ⟨buf1, log1⟩ := rest
        cases res with
        | none =>
          obtain ⟨b1, b2⟩ := hs2 buf1 log1 hs
          refine ⟨⟨FAT32_ERROR, buf1, log1⟩, rfl, ?_, ?_, ?_⟩
          · simp only []; omega
          · simp only []; omega
          · simp only []; omega
        | some br1 =>
          obtain ⟨a1, a2, a3, -, a4⟩ := hs1 br1 buf1 log1 hs
          have hlt := a4 hspc hg.2
          have hgl := get_next_cluster_log dev st log1 c
          obtain ⟨r, hr, t1, t2, t3⟩ := ih (get_next_cluster dev st log1 c).1 br1 buf1
            (get_next_cluster dev st log1 c).2 a1 a2 (by omega)
          refine ⟨r, hr, ?_, ?_, ?_⟩
          · simp only []; omega
          · simp only []; omega
          · simp only []; omega
    · rw [if_neg hg, if_neg hg]
      exact ⟨⟨toInt32 br, buf, log⟩, rfl, by simp, by simp, by simp⟩

/-- C14: if the root directory is read, a record is matched and its declared
size `n` is at most `max_size`, then on a volume with at least one sector per
cluster, for every table content and every device behaviour,
`fat32_read_file` returns as soon as it is given `ceil(n / 512)` rounds of the
chain loop, and the call issues at most `ceil(n / 512)` file-data reads and at
most `ceil(n / 512)` table reads (these and the read of the root directory are
all the reads of the call). -/
theorem read_file_terminates (fuel : Nat) (dev : Device) (st : Fat32) (log name : List Nat)
    (buffer : Nat → Nat) (max_size : Nat) (blk : Block) (e : Nat)
    (hread : dev log.length (cluster_to_sector st st.boot_sector.root_cluster) = some blk)
    (hfind : dir_search blk (to_fat_name name) 16 0 = some e)
    (hmax : entry_size blk e ≤ max_size)
    (hspc : 1 ≤ st.boot_sector.sectors_per_cluster)
    (hfuel : (entry_size blk e + 511) / 512 ≤ fuel) :
    ∃ r, fat32_read_file fuel dev st log name buffer max_size = some r ∧
      (read_file_tally fuel dev st log name buffer max_size).1 ≤ (entry_size blk e + 511) / 512 ∧
      (read_file_tally fuel dev st log name buffer max_size).2 ≤ (entry_size blk e + 511) / 512 ∧
      r.log.length = log.length + 1 + (read_file_tally fuel dev st log name buffer max_size).1
        + (read_file_tally fuel dev st log name buffer max_size).2 := by
  simp only [fat32_read_file, read_file_tally, sd_read_block, hread, hfind]
  rw [if_neg (by omega), if_neg (by omega)]
  obtain ⟨r, hr, t1, t2, t3⟩ := cluster_loop_tally_spec dev st (entry_size blk e) hspc fuel
    (entry_cluster blk e) 0 buffer (log ++ [cluster_to_sector st st.boot_sector.root_cluster])
    (Nat.zero_le _) (Or.inl rfl) (by simpa using hfuel)
  simp only [Nat.sub_zero, List.length_append, List.length_singleton] at t1 t2 t3
  exact ⟨r, hr, t1, t2, by omega⟩

/-- C14 at a table in which unit 5 is its own successor (a cyclic chain):
reading the 1300-byte `TEST.TXT` returns with 3 rounds, after 3 data reads and
3 table reads. -/
theorem read_file_terminates_witness :
    fat_entry (demo_disk (sparse [(20, 5)]) dir_test) demo_vol 5 = 5 ∧
    (entry_size dir_test 0 + 511) / 512 = 3 ∧
    ∃ r, fat32_read_file 3 (demo_dev (sparse [(20, 5)]) dir_test) demo_vol [] (cstr "test.txt")
        fresh 10240 = some r ∧
      (read_file_tally 3 (demo_dev (sparse [(20, 5)]) dir_test) demo_vol [] (cstr "test.txt")
        fresh 10240).1 ≤ (entry_size dir_test 0 + 511) / 512 ∧
      (read_file_tally 3 (demo_dev (sparse [(20, 5)]) dir_test) demo_vol [] (cstr "test.txt")
        fresh 10240).2 ≤ (entry_size dir_test 0 + 511) / 512 ∧
      r.log.length = ([] : List Nat).length + 1
        + (read_file_tally 3 (demo_dev (sparse [(20, 5)]) dir_test) demo_vol [] (cstr "test.txt")
            fresh 10240).1
        + (read_file_tally 3 (demo_dev (sparse [(20, 5)]) dir_test) demo_vol [] (cstr "test.txt")
            fresh 10240).2 :=
  ⟨by decide, by decide,
    read_file_terminates 3 (demo_dev (sparse [(20, 5)]) dir_test) demo_vol [] (cstr "test.txt")
      fresh 10240 dir_test 0 rfl (by decide) (by decide) (by decide) (by decide)⟩

/-! ## The caller's buffer is never overrun (C15) -/

theorem sector_loop_buffer (dev : Device) (sector n : Nat) :
    ∀ (k s br : Nat) (buf : Nat → Nat) (log : List Nat), br ≤ n →
      ∀ i, n ≤ i → (sector_loop dev sector n k s br buf log).2.1 i = buf i := by
  intro k
  induction k with
  | zero => intro s br buf log _ i _; simp [sector_loop]
  | succ k ih =>
    intro s br buf log hle i hi
    rw [sector_loop]
    by_cases hge : br ≥ n
    · rw [if_pos hge]
    · rw [if_neg hge]
      simp only [sd_read_block]
      cases hd : dev log.length ((sector + s) % 4294967296) with
      | none => rfl
      | some blk =>
        simp only []
        obtain ⟨tc, htc⟩ : ∃ tc, tc = (if n - br > 512 then 512 else n - br) := ⟨_, rfl⟩
        rw [← htc]
        have hp : br + tc ≤ n := by rw [htc]; split <;> omega
        rw [ih (s + 1) (br + tc) _ _ hp i hi]
        simp only [memcpy_at]
        rw [if_neg (by omega)]

theorem cluster_loop_buffer (dev : Device) (st : Fat32) (n : Nat) :
    ∀ (fuel c br : Nat) (buf : Nat → Nat) (log : List Nat) (r : ReadResult),
      cluster_loop dev st n fuel c br buf log = some r → br ≤ n →
      ∀ i, n ≤ i → r.buffer i = buf i := by
  intro fuel
  induction fuel with
  | zero =>
    intro c br buf log r h hle i hi
    rw [cluster_loop] at h
    split at h
    · exact absurd h (by simp)
    · simp only [Option.some.injEq] at h
      subst h
      rfl
  | succ fuel ih =>
    intro c br buf log r h hle i hi
    rw [cluster_loop] at h
    split at h
    · have hb := sector_loop_buffer dev (cluster_to_sector st c) n
        st.boot_sector.sectors_per_cluster 0 br buf log hle i hi
      cases hs : sector_loop dev (cluster_to_sector st c) n
          st.boot_sector.sectors_per_cluster 0 br buf log with
      | mk res rest =>
        obtain ⟨buf1, log1⟩ := rest
        rw [hs] at hb
        cases res with
        | none =>
          simp only [hs, Option.some.injEq] at h
          subst h
          exact hb
        | some br1 =>
          simp only [hs] at h
          rw [ih _ _ _ _ r h (sector_loop_le dev _ n _ _ _ _ _ _ _ _ hs hle) i hi]
          exact hb
    · simp only [Option.some.injEq] at h
      subst h
      rfl

/-- C15: whatever the volume content, the name, the table and the device do,
when `fat32_read_file` returns, every byte of the caller's buffer that differs
from its value before the call lies at an offset below the declared size of a
matched record, and that size is at most `max_size`; for the matched record all
bytes at offsets from the declared size on are unchanged, and the value
returned is `FAT32_ERROR` or a count `bytes_read` that does not exceed the
declared size.  (The statement holds for every initial buffer, and the control
flow does not depend on the buffer, so no write can fall outside that range.) -/
theorem read_file_no_overrun (fuel : Nat) (dev : Device) (st : Fat32) (log name : List Nat)
    (buffer : Nat → Nat) (max_size : Nat) (r : ReadResult)
    (h : fat32_read_file fuel dev st log name buffer max_size = some r) :
    (∀ i, r.buffer i ≠ buffer i →
      ∃ blk e, dev log.length (cluster_to_sector st st.boot_sector.root_cluster) = some blk ∧
        dir_search blk (to_fat_name name) 16 0 = some e ∧
        entry_size blk e ≤ max_size ∧ i < entry_size blk e) ∧
    (∀ blk e, dev log.length (cluster_to_sector st st.boot_sector.root_cluster) = some blk →
      dir_search blk (to_fat_name name) 16 0 = some e →
      (∀ i, entry_size blk e ≤ i → r.buffer i = buffer i) ∧
      (r.ret = FAT32_ERROR ∨ ∃ br, br ≤ entry_size blk e ∧ r.ret = toInt32 br)) := by
  simp only [fat32_read_file, sd_read_block] at h
  cases hd : dev log.length (cluster_to_sector st st.boot_sector.root_cluster) with
  | none =>
    simp only [hd, Option.some.injEq] at h
    subst h
    exact ⟨fun i hi => absurd rfl hi, fun blk e hb => absurd hb (by simp)⟩
  | some blk =>
    simp only [hd] at h
    cases hs : dir_search blk (to_fat_name name) 16 0 with
    | none =>
      simp only [hs, Option.some.injEq] at h
      subst h
      refine ⟨fun i hi => absurd rfl hi, ?_⟩
      intro blk' e hb hf
      have e1 : blk' = blk := (Option.some.inj hb).symm
      subst e1
      rw [hs] at hf
      exact absurd hf (by simp)
    | some e =>
      simp only [hs] at h
      by_cases hbig : entry_size blk e > max_size
      · rw [if_pos hbig] at h
        simp only [Option.some.injEq] at h
        subst h
        refine ⟨fun i hi => absurd rfl hi, ?_⟩
        intro blk' e' hb hf
        exact ⟨fun i _ => rfl, Or.inl rfl⟩
      · rw [if_neg hbig] at h
        have hbuf := cluster_loop_buffer dev st _ _ _ _ _ _ r h (Nat.zero_le _)
        have hret := cluster_loop_ret dev st _ _ _ _ _ _ r h (Nat.zero_le _)
        constructor
        · intro i hi
          refine ⟨blk, e, rfl, hs, by omega, ?_⟩
          by_contra hge
          exact hi (hbuf i (by omega))
        · intro blk' e' hb hf
          have e1 : blk' = blk := (Option.some.inj hb).symm
          subst e1
          rw [hs] at hf
          have e2 : e' = e := (Option.some.inj hf).symm
          subst e2
          exact ⟨hbuf, hret⟩

/-- C15 at a read that is cut short: `TEST.TXT` (1300 bytes, chain 5 -> 9 ->
12) on a device whose fourth read, the second data block, fails; the call
returns `FAT32_ERROR` with the first block copied, and every byte from offset
1300 on is as before. -/
theorem read_file_no_overrun_witness :
    fat32_read_file 3 (flaky_dev 3 fat_5_9_12 dir_test) demo_vol [] (cstr "test.txt") fresh 10240
      = some ⟨FAT32_ERROR, memcpy_at fresh 0 (demo_disk fat_5_9_12 dir_test 9) 512, [6, 9, 4, 13]⟩ ∧
    entry_size dir_test 0 = 1300 ∧
    ∀ i, entry_size dir_test 0 ≤ i →
      memcpy_at fresh 0 (demo_disk fat_5_9_12 dir_test 9) 512 i = fresh i :=
  ⟨rfl, by decide,
    ((read_file_no_overrun 3 (flaky_dev 3 fat_5_9_12 dir_test) demo_vol [] (cstr "test.txt") fresh
      10240 ⟨FAT32_ERROR, memcpy_at fresh 0 (demo_disk fat_5_9_12 dir_test 9) 512, [6, 9, 4, 13]⟩
      rfl).2 dir_test 0 rfl (by decide)).1⟩

/-! ## Bounded polls of the block transport (C12) -/

theorem cmd_done_loop_never (hw : Sd.Emmc) :
    ∀ (n : Nat) (s : Sd.SdState), (∀ t, s.clock ≤ t → hw Sd.Reg.INTERRUPT t &&& 1 = 0) →
      Sd.cmd_done_loop hw n s = (-1, { s with clock := s.clock + n + 1 }) := by
  intro n
  induction n with
  | zero =>
    intro s h
    simp [Sd.cmd_done_loop, Sd.reg_read, h s.clock (le_refl _)]
  | succ n ih =>
    intro s h
    rw [Sd.cmd_done_loop]
    simp only [Sd.reg_read, h s.clock (le_refl _)]
    rw [if_pos trivial, ih _ (fun t ht => h t (by simp at ht; omega))]
    simp only [Prod.mk.injEq, Sd.SdState.mk.injEq, true_and, and_true]
    omega

theorem data_wait_loop_never (hw : Sd.Emmc) (mask : Nat) :
    ∀ (n : Nat) (s : Sd.SdState), (∀ t, s.clock ≤ t → hw Sd.Reg.STATUS t &&& mask = 0) →
      Sd.data_wait_loop hw mask (n + 1) s = (true, 0, { s with clock := s.clock + n + 1 }) := by
  intro n
  induction n with
  | zero =>
    intro s h
    simp [Sd.data_wait_loop, Sd.reg_read, h s.clock (le_refl _)]
  | succ n ih =>
    intro s h
    rw [Sd.data_wait_loop]
    simp only [Sd.reg_read, h s.clock (le_refl _)]
    rw [if_pos trivial, if_neg (by omega), ih _ (fun t ht => h t (by simp at ht; omega))]
    simp only [Prod.mk.injEq, Sd.SdState.mk.injEq, true_and, and_true]
    omega

theorem send_cmd_never (hw : Sd.Emmc) (s : Sd.SdState) (cmd arg : Nat)
    (hok : (Sd.sd_wait_for_cmd hw s).1 = Sd.SD_OK)
    (hnever : ∀ t, (Sd.sd_wait_for_cmd hw s).2.clock + 1 ≤ t → hw Sd.Reg.INTERRUPT t &&& 1 = 0) :
    (Sd.sd_send_cmd hw s cmd arg).1 = Sd.SD_TIMEOUT ∧
    (Sd.sd_send_cmd hw s cmd arg).2.clock = (Sd.sd_wait_for_cmd hw s).2.clock + 1 + 1000001 := by
  have hc : (Sd.cmd_issued hw (Sd.sd_wait_for_cmd hw s).2 cmd arg).clock
      = (Sd.sd_wait_for_cmd hw s).2.clock + 1 := rfl
  have hl := cmd_done_loop_never hw 1000000 (Sd.cmd_issued hw (Sd.sd_wait_for_cmd hw s).2 cmd arg)
    (fun t ht => hnever t (by rw [hc] at ht; exact ht))
  unfold Sd.sd_send_cmd
  rw [if_neg (by simp [hok])]
  simp only [hl]
  rw [if_pos (by norm_num)]
  refine ⟨rfl, ?_⟩
  show (Sd.cmd_issued hw (Sd.sd_wait_for_cmd hw s).2 cmd arg).clock + 1000000 + 1 = _
  rw [hc]

theorem read_words_never (hw : Sd.Emmc) (s : Sd.SdState)
    (hnever : ∀ t, s.clock ≤ t → hw Sd.Reg.STATUS t &&& (1 <<< 5) = 0) :
    Sd.read_words hw 128 1000000 [] s
      = (Sd.SD_TIMEOUT, [], { s with clock := s.clock + 1000000 }) := by
  have hw1 := data_wait_loop_never hw (1 <<< 5) 999999 s hnever
  have hd : Sd.data_wait hw (1 <<< 5) 1000000 s
      = (true, 0, { s with clock := s.clock + 999999 + 1 }) := by
    unfold Sd.data_wait
    rw [if_pos (by norm_num)]
    exact hw1
  show Sd.read_words hw (127 + 1) 1000000 [] s = _
  rw [Sd.read_words]
  simp only [hd]
  rfl

theorem write_words_never (hw : Sd.Emmc) (buffer : Nat → Nat) (s : Sd.SdState)
    (hnever : ∀ t, s.clock ≤ t → hw Sd.Reg.STATUS t &&& (1 <<< 4) = 0) :
    Sd.write_words hw buffer 128 0 1000000 s
      = (Sd.SD_TIMEOUT, { s with clock := s.clock + 1000000 }) := by
  have hw1 := data_wait_loop_never hw (1 <<< 4) 999999 s hnever
  have hd : Sd.data_wait hw (1 <<< 4) 1000000 s
      = (true, 0, { s with clock := s.clock + 999999 + 1 }) := by
    unfold Sd.data_wait
    rw [if_pos (by norm_num)]
    exact hw1
  show Sd.write_words hw buffer (127 + 1) 0 1000000 s = _
  rw [Sd.write_words]
  simp only [hd]
  rfl

/-- C12 as stated fails in its first part: with a controller that is never
busy and never sets the command-complete bit, `sd_send_cmd` does return
`SD_TIMEOUT`, but its completion loop starts when 2 register reads have been
issued and ends when 1000003 have: the interrupt register is polled 1,000,001
times, once more than the 1,000,000 the claim allows (the counter permits
1,000,000 waits and is only seen exhausted at the next poll). -/
theorem send_cmd_polls_once_more :
    (Sd.sd_wait_for_cmd Sd.dead Sd.boot_state).1 = Sd.SD_OK ∧
    (Sd.cmd_issued Sd.dead (Sd.sd_wait_for_cmd Sd.dead Sd.boot_state).2 Sd.CMD_GO_IDLE 0).clock = 2 ∧
    (Sd.sd_send_cmd Sd.dead Sd.boot_state Sd.CMD_GO_IDLE 0).1 = Sd.SD_TIMEOUT ∧
    (Sd.sd_send_cmd Sd.dead Sd.boot_state Sd.CMD_GO_IDLE 0).2.clock = 2 + 1000001 := by
  have hok : (Sd.sd_wait_for_cmd Sd.dead Sd.boot_state).1 = Sd.SD_OK := by decide
  have hclk : (Sd.sd_wait_for_cmd Sd.dead Sd.boot_state).2.clock = 1 := by decide
  obtain ⟨h1, h2⟩ := send_cmd_never Sd.dead Sd.boot_state Sd.CMD_GO_IDLE 0 hok
    (fun _ _ => by simp [Sd.dead])
  rw [hclk] at h2
  exact ⟨hok, by decide, h1, h2⟩

/-- C12 amended: the `clock` counts register reads.  (1) If `sd_wait_for_cmd`
succeeds, so that the command is issued, and bit 0 of the interrupt register
is clear at every read from then on, `sd_send_cmd` returns `SD_TIMEOUT` after
exactly 1,000,001 polls of that register.  (2) If the transport is initialized,
the read (write) command returns `SD_OK` and bit 5 (bit 4) of the status
register is clear at every read from then on, `sd_read_block`
(`sd_write_block`) returns `SD_TIMEOUT` after exactly 1,000,000 polls of the
status register.  No loop runs unboundedly. -/
theorem sd_polls_time_out (hw : Sd.Emmc) (s : Sd.SdState) (cmd arg block : Nat)
    (buffer : Nat → Nat) :
    ((Sd.sd_wait_for_cmd hw s).1 = Sd.SD_OK →
      (∀ t, (Sd.sd_wait_for_cmd hw s).2.clock + 1 ≤ t → hw Sd.Reg.INTERRUPT t &&& 1 = 0) →
      (Sd.sd_send_cmd hw s cmd arg).1 = Sd.SD_TIMEOUT ∧
      (Sd.sd_send_cmd hw s cmd arg).2.clock
        = (Sd.sd_wait_for_cmd hw s).2.clock + 1 + 1000001) ∧
    (s.sd_initialized ≠ 0 →
      (Sd.sd_send_cmd hw (Sd.reg_write s Sd.Reg.BLKSIZECNT ((1 <<< 16) ||| 512))
        Sd.CMD_READ_SINGLE block).1 = Sd.SD_OK →
      (∀ t, (Sd.sd_send_cmd hw (Sd.reg_write s Sd.Reg.BLKSIZECNT ((1 <<< 16) ||| 512))
          Sd.CMD_READ_SINGLE block).2.clock ≤ t → hw Sd.Reg.STATUS t &&& (1 <<< 5) = 0) →
      (Sd.sd_read_block hw s block).1 = Sd.SD_TIMEOUT ∧
      (Sd.sd_read_block hw s block).2.2.clock
        = (Sd.sd_send_cmd hw (Sd.reg_write s Sd.Reg.BLKSIZECNT ((1 <<< 16) ||| 512))
            Sd.CMD_READ_SINGLE block).2.clock + 1000000) ∧
    (s.sd_initialized ≠ 0 →
      (Sd.sd_send_cmd hw (Sd.reg_write s Sd.Reg.BLKSIZECNT ((1 <<< 16) ||| 512))
        Sd.CMD_WRITE_SINGLE block).1 = Sd.SD_OK →
      (∀ t, (Sd.sd_send_cmd hw (Sd.reg_write s Sd.Reg.BLKSIZECNT ((1 <<< 16) ||| 512))
          Sd.CMD_WRITE_SINGLE block).2.clock ≤ t → hw Sd.Reg.STATUS t &&& (1 <<< 4) = 0) →
      (Sd.sd_write_block hw s block buffer).1 = Sd.SD_TIMEOUT ∧
      (Sd.sd_write_block hw s block buffer).2.clock
        = (Sd.sd_send_cmd hw (Sd.reg_write s Sd.Reg.BLKSIZECNT ((1 <<< 16) ||| 512))
            Sd.CMD_WRITE_SINGLE block).2.clock + 1000000) := by
  refine ⟨fun hok hnever => send_cmd_never hw s cmd arg hok hnever, ?_, ?_⟩
  · intro hinit hok hnever
    unfold Sd.sd_read_block
    generalize (1 <<< 16 ||| 512 : Nat) = v at hok hnever ⊢
    rw [if_neg hinit]
    simp only [hok, ne_eq, not_true_eq_false, if_false]
    rw [read_words_never hw _ hnever]
    exact ⟨rfl, rfl⟩
  · intro hinit hok hnever
    unfold Sd.sd_write_block
    generalize (1 <<< 16 ||| 512 : Nat) = v at hok hnever ⊢
    rw [if_neg hinit]
    simp only [hok, ne_eq, not_true_eq_false, if_false]
    rw [write_words_never hw buffer _ hnever]
    exact ⟨rfl, rfl⟩

/-- C12 amended, at a controller whose registers all read 0 (the command never
completes) and at a controller that completes commands at once but never has
data ready. -/
theorem sd_polls_time_out_witness :
    ((Sd.sd_send_cmd Sd.dead Sd.boot_state Sd.CMD_GO_IDLE 0).1 = Sd.SD_TIMEOUT ∧
      (Sd.sd_send_cmd Sd.dead Sd.boot_state Sd.CMD_GO_IDLE 0).2.clock
        = (Sd.sd_wait_for_cmd Sd.dead Sd.boot_state).2.clock + 1 + 1000001) ∧
    ((Sd.sd_read_block (Sd.card 0) Sd.ready_state 7).1 = Sd.SD_TIMEOUT ∧
      (Sd.sd_read_block (Sd.card 0) Sd.ready_state 7).2.2.clock
        = (Sd.sd_send_cmd (Sd.card 0)
            (Sd.reg_write Sd.ready_state Sd.Reg.BLKSIZECNT ((1 <<< 16) ||| 512))
            Sd.CMD_READ_SINGLE 7).2.clock + 1000000) ∧
    ((Sd.sd_write_block (Sd.card 0) Sd.ready_state 7 fresh).1 = Sd.SD_TIMEOUT ∧
      (Sd.sd_write_block (Sd.card 0) Sd.ready_state 7 fresh).2.clock
        = (Sd.sd_send_cmd (Sd.card 0)
            (Sd.reg_write Sd.ready_state Sd.Reg.BLKSIZECNT ((1 <<< 16) ||| 512))
            Sd.CMD_WRITE_SINGLE 7).2.clock + 1000000) :=
  ⟨(sd_polls_time_out Sd.dead Sd.boot_state Sd.CMD_GO_IDLE 0 7 fresh).1 (by decide)
      (fun _ _ => by simp [Sd.dead]),
    (sd_polls_time_out (Sd.card 0) Sd.ready_state Sd.CMD_GO_IDLE 0 7 fresh).2.1 (by decide)
      (by decide) (fun _ _ => by simp [Sd.card]),
    (sd_polls_time_out (Sd.card 0) Sd.ready_state Sd.CMD_GO_IDLE 0 7 fresh).2.2 (by decide)
      (by decide) (fun _ _ => by simp [Sd.card])⟩

/-! ## The operating-condition retry loop of `sd_init` (C13) -/

theorem op_cond_loop_cases (hw : Sd.Emmc) :
    ∀ (n : Nat) (s : Sd.SdState),
      (Sd.op_cond_loop hw n s).1 = -1 ∨
      (0 ≤ (Sd.op_cond_loop hw n s).1 ∧ (Sd.op_cond_loop hw n s).1 < n ∧
        1 ≤ (Sd.op_cond_loop hw n s).2.clock ∧
        hw Sd.Reg.RESP0 ((Sd.op_cond_loop hw n s).2.clock - 1) &&& 0x80000000 ≠ 0) := by
  intro n
  induction n with
  | zero => intro s; left; rfl
  | succ n ih =>
    intro s
    have hstep : ∀ s', (Sd.op_cond_loop hw n s').1 = -1 ∨
        (0 ≤ (Sd.op_cond_loop hw n s').1 ∧ (Sd.op_cond_loop hw n s').1 < ((n + 1 : Nat) : Int) ∧
          1 ≤ (Sd.op_cond_loop hw n s').2.clock ∧
          hw Sd.Reg.RESP0 ((Sd.op_cond_loop hw n s').2.clock - 1) &&& 0x80000000 ≠ 0) := by
      intro s'
      rcases ih s' with h | ⟨h1, h2, h3, h4⟩
      · exact Or.inl h
      · exact Or.inr ⟨h1, by push_cast; omega, h3, h4⟩
    rw [Sd.op_cond_loop]
    simp only []
    split
    · exact hstep _
    · split
      · exact hstep _
      · split
        · rename_i hr
          right
          refine ⟨by simp, by push_cast; omega, by simp [Sd.reg_read], ?_⟩
          simpa [Sd.reg_read] using hr
        · exact hstep _

set_option maxRecDepth 10000000 in
set_option maxHeartbeats 4000000 in
/-- C13, at a controller that completes every command without error and
reports the card ready (bit 31 of `RESP0`) exactly at the read of the 1000th
attempt: after 999 attempts without a ready card (reads 10 to 9000) the 1000th
attempt sends both commands successfully and reads `RESP0` with bit 31 set
(read 9009), the loop is left by `break` with `timeout` equal to 0, and
`sd_init` returns `SD_TIMEOUT` without ever sending all-send-identification;
when the card is ready at the 999th attempt (read 9000) `sd_init` goes on and
returns `SD_OK`. -/
theorem sd_init_ready_on_last_attempt :
    Sd.card 9009 Sd.Reg.RESP0 9009 &&& 0x80000000 ≠ 0 ∧
    (Sd.sd_send_cmd (Sd.card 9009)
      (Sd.sd_send_cmd (Sd.card 9009) (Sd.sd_init_clocks (Sd.card 9009) Sd.boot_state)
        Sd.CMD_GO_IDLE 0).2 Sd.CMD_SEND_IF_COND 0x1AA).2.clock = 10 ∧
    (Sd.op_cond_loop (Sd.card 9009) 999
      (Sd.sd_send_cmd (Sd.card 9009)
        (Sd.sd_send_cmd (Sd.card 9009) (Sd.sd_init_clocks (Sd.card 9009) Sd.boot_state)
          Sd.CMD_GO_IDLE 0).2 Sd.CMD_SEND_IF_COND 0x1AA).2).2.clock = 9001 ∧
    (Sd.op_cond_loop (Sd.card 9009) 1000
      (Sd.sd_send_cmd (Sd.card 9009)
        (Sd.sd_send_cmd (Sd.card 9009) (Sd.sd_init_clocks (Sd.card 9009) Sd.boot_state)
          Sd.CMD_GO_IDLE 0).2 Sd.CMD_SEND_IF_COND 0x1AA).2).1 = 0 ∧
    (Sd.sd_init (Sd.card 9009) Sd.boot_state).1 = Sd.SD_TIMEOUT ∧
    (Sd.sd_init (Sd.card 9009) Sd.boot_state).2.clock = 9010 ∧
    (Sd.Reg.CMDTM, Sd.CMD_ALL_SEND_CID) ∉ (Sd.sd_init (Sd.card 9009) Sd.boot_state).2.writes ∧
    (Sd.sd_init (Sd.card 9000) Sd.boot_state).1 = Sd.SD_OK := by
  decide

/-! ## The value returned is the count of bytes copied (C10) -/

end Nib
